import Mathlib

/-! Price cache of `pkg/client/alibabacloud.go`

A shallow embedding of `AlibabaCloudPriceClient`: the price store, the on-demand
and spot refresh passes, the table-building loop of `getECSPrice`, region
discovery and the three read accessors.

Conventions of the embedding.

* A Go `map[string]V` is a `GoMap V`: a list of key/value entries read by the
  first entry of a key and written in place. A nil map reads as the empty map;
  the source never writes to a map it has not made first (lines 148-154 and
  248-251 make the map before the write).
* `float64` rates are exact rationals (`Rate`).
* Pointers to records are followed: the store holds the records themselves. The
  refresh passes never write to a record after it has been put in the store. The
  one place where a pointer into the store leaves the client, `GetInstancePrice`,
  is modelled with `InstanceRef`.
* Calls that leave the process (the ECS SDK, the HTTP download of the pricing
  document, `strconv.ParseFloat`) are the fields of `Upstream`.
* A batch of a `tools.ParallelTask` runs its tasks one after the other, in the
  order they were added, and a `range` over a Go map visits the entries in the
  order of the list. Both are one of the orders the program may take; where the
  end state of a pass depends on the order, the theorems say so and treat the
  orders one by one.
-/

namespace PriceServer

/-! ## Go maps -/

/-- A Go `map[string]V`, as the list of its entries. -/
abbrev GoMap (V : Type) := List (String × V)

namespace GoMap

/-- The Go read `v, ok := m[k]`: the value of the first entry with key `k`. -/
def get? {V : Type} : GoMap V → String → Option V
  | [], _ => none
  | (k', v) :: m, k => if k' = k then some v else get? m k

/-- The Go write `m[k] = v`: overwrite the entry of `k`, or add one. -/
def set {V : Type} : GoMap V → String → V → GoMap V
  | [], k, v => [(k, v)]
  | (k', v') :: m, k, v => if k' = k then (k, v) :: m else (k', v') :: set m k v

/-- The keys of a map, in the order a `range` over it visits them. -/
def keys {V : Type} (m : GoMap V) : List String := m.map Prod.fst

/-- Whether `k` is a key: the `ok` of `_, ok := m[k]`. -/
def has {V : Type} (m : GoMap V) (k : String) : Bool := (m.get? k).isSome

end GoMap

/-! ## Data model (`pkg/apis`) -/

/-- An hourly rate, a CPU count or a memory size: a Go `float64`, kept exact. -/
abbrev Rate := ℚ

/-- Modelled from the spec: `apis.InstanceTypePrice`, whose declaration is in
`pkg/apis`; the fields are the ones this file reads and writes. -/
structure InstanceTypePrice where
  Arch : String
  VCPU : Rate
  Memory : Rate
  GPU : Rate
  Zones : List String
  OnDemandPricePerHour : Rate
  SpotPricePerHour : GoMap Rate
  deriving DecidableEq, Repr

/-- Modelled from the spec: `apis.RegionalInstancePrice`, whose declaration is in
`pkg/apis`: the instance-type map of one region. -/
structure RegionalInstancePrice where
  InstanceTypePrices : GoMap InstanceTypePrice
  deriving DecidableEq, Repr

/-- Modelled from the spec: `(*apis.RegionalInstancePrice).DeepCopy` of `pkg/apis`
returns a record that shares nothing with its receiver: a new record with the
same content. -/
def RegionalInstancePrice.DeepCopy (r : RegionalInstancePrice) : RegionalInstancePrice :=
  { InstanceTypePrices := r.InstanceTypePrices }

/-- The client of lines 31-39; `dataMutex` has no content. -/
structure AlibabaCloudPriceClient where
  akskPool : GoMap String
  regionList : List String
  priceData : GoMap RegionalInstancePrice
  deriving DecidableEq, Repr

/-! ## What the client calls outside the process -/

/-- A non-nil `*string` field of an SDK response: the address the pointer holds
and the string at that address. -/
structure StringPointer where
  address : Nat
  value : String
  deriving DecidableEq, Repr

/-- The call `tea.ToString(p)` on a `*string` (line 335). `tea.ToString` formats
its argument with `%v`, which for a pointer prints the address, "0x" and its
hexadecimal digits; the string at the address is not read (`tea.StringValue`
is the call that reads it). -/
def teaToString (p : StringPointer) : String :=
  "0x" ++ String.mk (Nat.toDigits 16 p.address)

/-- One entry of `DescribeInstanceTypes`. -/
structure InstanceTypeItem where
  InstanceTypeId : String
  CpuArchitecture : StringPointer
  CpuCoreCount : Int
  MemorySize : Rate
  GPUAmount : Int
  deriving DecidableEq, Repr

/-- One `hours` entry of the pricing document (line 182). -/
structure ECSHoursPrice where
  Price : String
  deriving DecidableEq, Repr

/-- One value of `pricingInfo` (line 178). -/
structure ECSPriceDetail where
  Hours : List ECSHoursPrice
  deriving DecidableEq, Repr

/-- The decoded pricing document (line 174), in the order line 237 visits it. -/
structure ECSPrice where
  PricingInfo : GoMap ECSPriceDetail
  deriving DecidableEq, Repr

/-- An `*ecsclient.Client`: the configuration it was made from (lines 401-405). -/
structure ECSClient where
  AccessKeyId : String
  AccessKeySecret : String
  RegionId : String
  deriving DecidableEq, Repr

/-- The answers of the provider and of the library calls. Each SDK call answers
an error or a body; bodies are taken well formed: no nil pointer, and
`DescribeAvailableResource` has a first zone with a first resource, whose
`SupportedResource` values are what the field holds. Line 331 indexes both with
`[0]` and no length check, so an answer without them makes the program panic;
such an answer is not among the inputs here, and nothing below is about it. -/
structure Upstream where
  /-- Whether `ecsclient.NewClient` accepts the configuration (line 406). -/
  NewClient : String → String → String → Except String Unit
  /-- The zone ids of `DescribeZonesWithOptions` for a region (line 303). -/
  DescribeZones : String → Except String (List String)
  /-- The items of `DescribeInstanceTypesWithOptions` (line 310). -/
  DescribeInstanceTypes : String → Except String (List InstanceTypeItem)
  /-- The supported instance-type ids of `DescribeAvailableResource` (line 317). -/
  DescribeAvailableResource : String → Except String (List String)
  /-- The (zone, price) entries of `DescribeSpotPriceHistoryWithOptions` for a
  region and an instance type (line 94). -/
  DescribeSpotPriceHistory : String → String → Except String (List (String × Rate))
  /-- The region ids of `DescribeRegionsWithOptions` (line 383). -/
  DescribeRegions : Except String (List String)
  /-- Lines 187-234: download and decode the pricing document. -/
  fetchPricingDocument : Except String ECSPrice
  /-- The number `strconv.ParseFloat(s, 64)` reads, if `s` is one (line 243). -/
  ParseFloat : String → Except String Rate

/-! ## Creating clients and listing instance types -/

/-- Lines 399-415: make a client from the first pair of the pool the `range`
yields; an empty pool is an error. -/
def createECSClient (up : Upstream) (a : AlibabaCloudPriceClient) (region : String) :
    Except String ECSClient :=
  match a.akskPool with
  | [] => .error "failed to create ecs client"
  | (ak, sk) :: _ =>
    match up.NewClient ak sk region with
    | .error e => .error e
    | .ok _ => .ok { AccessKeyId := ak, AccessKeySecret := sk, RegionId := region }

/-- Lines 348-357. -/
def isSupportedResource (instanceType : String) (supportedResource : List String) : Bool :=
  match supportedResource with
  | [] => false
  | i :: rest => if i = instanceType then true else isSupportedResource instanceType rest

/-- Lines 359-368. -/
def extractECSArch (unFormatedArch : String) : String :=
  if unFormatedArch = "X86" then "amd64"
  else if unFormatedArch = "ARM" then "arm64"
  else "amd64"

/-- The loop of lines 329-343: one record per supported item, with its shape and
the region's zones; the rates are left at their zero values. `Arch` is computed
from the formatted pointer, as line 335 does, so it is `amd64` whatever the
architecture string says. -/
def listInstanceTypes.fill (zones : List String) (supported : List String) :
    List InstanceTypeItem → GoMap InstanceTypePrice → GoMap InstanceTypePrice
  | [], ret => ret
  | item :: items, ret =>
    if !isSupportedResource item.InstanceTypeId supported then
      listInstanceTypes.fill zones supported items ret
    else
      listInstanceTypes.fill zones supported items
        (ret.set item.InstanceTypeId
          { Arch := extractECSArch (teaToString item.CpuArchitecture)
            VCPU := item.CpuCoreCount
            Memory := item.MemorySize
            GPU := item.GPUAmount
            Zones := zones
            OnDemandPricePerHour := 0
            SpotPricePerHour := [] })

/-- Lines 297-346. -/
def listInstanceTypes (up : Upstream) (a : AlibabaCloudPriceClient) (region : String) :
    Except String (GoMap InstanceTypePrice) :=
  match createECSClient up a region with
  | .error e => .error e
  | .ok _ =>
    match up.DescribeZones region with
    | .error e => .error e
    | .ok zones =>
      match up.DescribeInstanceTypes region with
      | .error e => .error e
      | .ok types =>
        match up.DescribeAvailableResource region with
        | .error e => .error e
        | .ok supported => .ok (listInstanceTypes.fill zones supported types [])

/-! ## Spot pass -/

/-- The loop of lines 105-107 (and again 109-111): one entry per zone. -/
def getSpotPrice.fill : List (String × Rate) → GoMap Rate → GoMap Rate
  | [], ret => ret
  | (zoneId, spotPrice) :: rest, ret => getSpotPrice.fill rest (ret.set zoneId spotPrice)

/-- Lines 86-114: an error, nil when the provider has no spot price, or the
zone to price map. -/
def getSpotPrice (up : Upstream) (_client : ECSClient) (region instanceType : String) :
    Except String (GoMap Rate) :=
  match up.DescribeSpotPriceHistory region instanceType with
  | .error e => .error e
  | .ok spotPriceType =>
    if spotPriceType.length = 0 then .ok []
    else .ok (getSpotPrice.fill spotPriceType (getSpotPrice.fill spotPriceType []))

/-- One task of the second batch of `refreshSpotPrice` (line 166). -/
structure SpotTask where
  region : String
  client : ECSClient
  info : InstanceTypePrice
  instanceType : String
  deriving DecidableEq, Repr

/-- Lines 137-156: the handler of the spot pass. -/
def refreshSpotPrice.priceHandleFunc (up : Upstream) (a : AlibabaCloudPriceClient)
    (t : SpotTask) : AlibabaCloudPriceClient :=
  match getSpotPrice up t.client t.region t.instanceType with
  | .error _ => a
  | .ok spotPrice =>
    let info := { t.info with SpotPricePerHour := spotPrice }
    -- lines 148-150
    let priceData :=
      if a.priceData.has t.region then a.priceData
      else a.priceData.set t.region { InstanceTypePrices := [] }
    let regionData := (priceData.get? t.region).getD { InstanceTypePrices := [] }
    -- lines 151-153
    let types :=
      if regionData.InstanceTypePrices.has t.instanceType then regionData.InstanceTypePrices
      else []
    -- line 154
    { a with priceData := priceData.set t.region { InstanceTypePrices := types.set t.instanceType info } }

/-- Modelled from the spec: `tools.ParallelTask` of `pkg/tools` runs its handler
on every task that was added, each to completion; here one after the other, in
the order they were added. -/
def ParallelTask.Process {S T : Type} (handler : S → T → S) (tasks : List T) (s : S) : S :=
  tasks.foldl handler s

/-- Lines 120-135: the listings of the regions whose listing succeeds. -/
def refreshSpotPrice.instanceTypesMapHandleFunc (up : Upstream) (a : AlibabaCloudPriceClient)
    (instanceTypesMap : GoMap (GoMap InstanceTypePrice)) (region : String) :
    GoMap (GoMap InstanceTypePrice) :=
  match listInstanceTypes up a region with
  | .error _ => instanceTypesMap
  | .ok instanceTypes => instanceTypesMap.set region instanceTypes

/-- Lines 159-168: the tasks of the second batch, regions and instance types in
the order of the lists; the source ranges over two Go maps, so this is one of
the orders in which the tasks can be added. -/
def refreshSpotPrice.tasks (up : Upstream) (a : AlibabaCloudPriceClient) :
    GoMap (GoMap InstanceTypePrice) → List SpotTask
  | [] => []
  | (region, instanceTypes) :: rest =>
    match createECSClient up a region with
    | .error _ => refreshSpotPrice.tasks up a rest
    | .ok client =>
      instanceTypes.map (fun e =>
          { region := region, client := client, info := e.2, instanceType := e.1 })
        ++ refreshSpotPrice.tasks up a rest

/-- Lines 116-172. -/
def refreshSpotPrice (up : Upstream) (a : AlibabaCloudPriceClient) : AlibabaCloudPriceClient :=
  let instanceTypesMap :=
    ParallelTask.Process (refreshSpotPrice.instanceTypesMapHandleFunc up a) a.regionList []
  ParallelTask.Process (refreshSpotPrice.priceHandleFunc up)
    (refreshSpotPrice.tasks up a instanceTypesMap) a

/-! ## On-demand price table (`getECSPrice`) -/

/-- How a Go call that returns `(T, error)` ends: with a value, with an error, or
in a run-time panic. -/
inductive Outcome (α : Type) where
  | ok (v : α)
  | error (e : String)
  | panic (msg : String)
  deriving DecidableEq, Repr

/-- The call `strings.Split(k, "::")` on the characters of `k`: cut at every
"::", left to right; `cur` holds the characters of the part being read, last
first. -/
def splitDoubleColon : List Char → List Char → List String
  | [], cur => [String.mk cur.reverse]
  | [c], cur => [String.mk (c :: cur).reverse]
  | c :: d :: rest, cur =>
    if c = ':' ∧ d = ':' then String.mk cur.reverse :: splitDoubleColon rest []
    else splitDoubleColon (d :: rest) (c :: cur)

/-- The region to instance type to rate table of `getECSPrice`. -/
abbrev PriceTable := GoMap (GoMap Rate)

/-- The Go read `priceInfo[region][instanceType]` (line 272): the zero value when
the region or the instance type is not in the table. -/
def PriceTable.rate (priceInfo : PriceTable) (region instanceType : String) : Rate :=
  (((priceInfo.get? region).getD []).get? instanceType).getD 0

/-- Lines 248-251: make the region's map if there is none, then write the rate. -/
def getECSPrice.put (ret : PriceTable) (regions instanceType : String) (price : Rate) :
    PriceTable :=
  let ret := if (ret.get? regions).isNone then ret.set regions [] else ret
  ret.set regions (((ret.get? regions).getD []).set instanceType price)

/-- Lines 236-255: the table-building loop, over the entries of the document in
the order the `range` visits them. `parts[3]` and `v.Hours[0]` are indexed as
the source does, without a length check. -/
def getECSPrice.build (parseFloat : String → Except String Rate) :
    List (String × ECSPriceDetail) → PriceTable → Outcome PriceTable
  | [], ret => .ok ret
  | (k, v) :: rest, ret =>
    let parts := splitDoubleColon k.data []
    match parts[0]? with
    | none => .panic "index out of range [0]"
    | some regions =>
      match parts[3]? with
      | none => .panic "index out of range [3]"
      | some os =>
        match parts[1]? with
        | none => .panic "index out of range [1]"
        | some instanceType =>
          if os = "linux" then
            match v.Hours[0]? with
            | none => .panic "index out of range [0]"
            | some hour =>
              match parseFloat hour.Price with
              | .error e => .error e
              | .ok price =>
                getECSPrice.build parseFloat rest (getECSPrice.put ret regions instanceType price)
          else getECSPrice.build parseFloat rest ret

/-- Lines 186-256. -/
def getECSPrice (up : Upstream) : Outcome PriceTable :=
  match up.fetchPricingDocument with
  | .error e => .error e
  | .ok ecsPrice => getECSPrice.build up.ParseFloat ecsPrice.PricingInfo []

/-! ## On-demand pass -/

/-- The body of the loop of lines 271-280 for one instance type: the fetched
rate, and the spot map of the stored record if there is one. -/
def RefreshOnDemandPrice.attach (priceInfo : PriceTable) (a : AlibabaCloudPriceClient)
    (region instanceType : String) (info : InstanceTypePrice) : InstanceTypePrice :=
  let info := { info with OnDemandPricePerHour := priceInfo.rate region instanceType }
  match a.priceData.get? region with
  | none => info
  | some regionData =>
    match regionData.InstanceTypePrices.get? instanceType with
    | none => info
    | some stored => { info with SpotPricePerHour := stored.SpotPricePerHour }

/-- The loop of lines 271-280 and the record of line 282: every record of the
listing with its rate and spot map attached. -/
def RefreshOnDemandPrice.rebuild (priceInfo : PriceTable) (a : AlibabaCloudPriceClient)
    (region : String) (instanceTypes : GoMap InstanceTypePrice) : RegionalInstancePrice :=
  { InstanceTypePrices := instanceTypes.map fun e =>
      (e.1, RefreshOnDemandPrice.attach priceInfo a region e.1 e.2) }

/-- Lines 264-284: the handler of the on-demand pass. -/
def RefreshOnDemandPrice.handleFunc (up : Upstream) (priceInfo : PriceTable)
    (a : AlibabaCloudPriceClient) (region : String) : AlibabaCloudPriceClient :=
  match listInstanceTypes up a region with
  | .error _ => a
  | .ok instanceTypes =>
    { a with priceData :=
        a.priceData.set region (RefreshOnDemandPrice.rebuild priceInfo a region instanceTypes) }

/-- Lines 258-295. The pass returns nothing: it ends normally (`ok`, with the
client as it is then) or in the panic of `getECSPrice`. -/
def RefreshOnDemandPrice (up : Upstream) (a : AlibabaCloudPriceClient) :
    Outcome AlibabaCloudPriceClient :=
  match getECSPrice up with
  | .panic msg => .panic msg
  | .error _ => .ok a
  | .ok priceInfo =>
    .ok (ParallelTask.Process (RefreshOnDemandPrice.handleFunc up priceInfo) a.regionList a)

/-! ## Region discovery -/

/-- Lines 370-374. -/
def ignoreRegions : GoMap Unit := [("ap-southeast-2", ())]

/-- The loop of lines 389-394. -/
def initialRegions.fill : List String → List String → List String
  | [], regionList => regionList
  | regionId :: rest, regionList =>
    if ignoreRegions.has regionId then initialRegions.fill rest regionList
    else initialRegions.fill rest (regionList ++ [regionId])

/-- Lines 376-397. -/
def initialRegions (up : Upstream) (a : AlibabaCloudPriceClient) :
    Except String AlibabaCloudPriceClient :=
  match createECSClient up a "cn-hangzhou" with
  | .error e => .error e
  | .ok _ =>
    match up.DescribeRegions with
    | .error e => .error e
    | .ok regions => .ok { a with regionList := initialRegions.fill regions a.regionList }

/-! ## Read accessors -/

/-- The record the store holds for an instance type of a region
(`a.priceData[region].InstanceTypePrices[instanceType]`), if it holds one. -/
def AlibabaCloudPriceClient.stored? (a : AlibabaCloudPriceClient) (region instanceType : String) :
    Option InstanceTypePrice :=
  match a.priceData.get? region with
  | none => none
  | some regionData => regionData.InstanceTypePrices.get? instanceType

/-- A non-nil `*apis.InstanceTypePrice` in the hands of a caller. The store holds
its records by value, so a pointer to a record of the store is the place of that
record in the store, and a pointer to a record nothing else refers to is that
record. -/
inductive InstanceRef where
  | stored (region instanceType : String)
  | own (v : InstanceTypePrice)
  deriving DecidableEq, Repr

/-- The record a pointer points to (`*p`). -/
def InstanceRef.load (a : AlibabaCloudPriceClient) : InstanceRef → Option InstanceTypePrice
  | .stored region instanceType => a.stored? region instanceType
  | .own v => some v

/-- A write through a pointer (`p.Field = x`, `p.SpotPricePerHour[zone] = x`),
given as the change `f` it makes to the record: the client and the pointer after
the write. -/
def InstanceRef.update (a : AlibabaCloudPriceClient) (f : InstanceTypePrice → InstanceTypePrice) :
    InstanceRef → AlibabaCloudPriceClient × InstanceRef
  | .stored region instanceType =>
    match a.priceData.get? region with
    | none => (a, .stored region instanceType)
    | some regionData =>
      match regionData.InstanceTypePrices.get? instanceType with
      | none => (a, .stored region instanceType)
      | some v =>
        let types := regionData.InstanceTypePrices.set instanceType (f v)
        ({ a with priceData := a.priceData.set region { InstanceTypePrices := types } },
          .stored region instanceType)
  | .own v => (a, .own (f v))

/-- The loop of lines 422-424. -/
def ListRegionsInstancesPrice.fill :
    GoMap RegionalInstancePrice → GoMap RegionalInstancePrice → GoMap RegionalInstancePrice
  | [], ret => ret
  | (k, v) :: rest, ret => ListRegionsInstancesPrice.fill rest (ret.set k v.DeepCopy)

/-- Lines 417-426: a new map of deep copies, the caller's own. -/
def ListRegionsInstancesPrice (a : AlibabaCloudPriceClient) : GoMap RegionalInstancePrice :=
  ListRegionsInstancesPrice.fill a.priceData []

/-- Lines 428-439: nil, or a new one-entry map with a deep copy. -/
def ListInstancesPrice (a : AlibabaCloudPriceClient) (region : String) :
    Option (GoMap RegionalInstancePrice) :=
  match a.priceData.get? region with
  | none => none
  | some d => some [(region, d.DeepCopy)]

/-- Lines 441-455: nil, or the pointer `d` that the store itself holds for the
instance type (line 454 returns it as it is). -/
def GetInstancePrice (a : AlibabaCloudPriceClient) (region instanceType : String) :
    Option InstanceRef :=
  match a.priceData.get? region with
  | none => none
  | some regionData =>
    match regionData.InstanceTypePrices.get? instanceType with
    | none => none
    | some _ => some (.stored region instanceType)

/-! ## A worked scenario

Region `R1` with instance type `T1` = {onDemand 0.096, spot {zoneA: 0.03}}, a
provider that lists `T1` in every region but `R2` (where listing the zones
fails), reports no spot price, and a pricing document with the rate 0.10 for
`T1` in `R1`. -/

/-- The stored record of `T1`. -/
def scenarioRecord : InstanceTypePrice :=
  { Arch := "amd64", VCPU := 2, Memory := 8, GPU := 0, Zones := ["zoneA"]
    OnDemandPricePerHour := 96 / 1000
    SpotPricePerHour := [("zoneA", 3 / 100)] }

/-- The client: one credential pair, regions `R1` and `R2`, and `T1` stored in
both. -/
def scenarioClient : AlibabaCloudPriceClient :=
  { akskPool := [("ak", "sk")]
    regionList := ["R1", "R2"]
    priceData :=
      [("R1", { InstanceTypePrices := [("T1", scenarioRecord)] }),
       ("R2", { InstanceTypePrices := [("T1", scenarioRecord)] })] }

/-- The provider and the pricing document of the scenario. -/
def scenarioUpstream : Upstream :=
  { NewClient := fun _ _ _ => .ok ()
    DescribeZones := fun region =>
      if region = "R2" then .error "ServiceUnavailable" else .ok ["zoneA"]
    DescribeInstanceTypes := fun _ =>
      .ok [{ InstanceTypeId := "T1"
             CpuArchitecture := { address := 0xc000012340, value := "X86" }
             CpuCoreCount := 2, MemorySize := 8, GPUAmount := 0 }]
    DescribeAvailableResource := fun _ => .ok ["T1"]
    DescribeSpotPriceHistory := fun _ _ => .ok []
    DescribeRegions := .ok ["R1", "ap-southeast-2", "R2"]
    fetchPricingDocument :=
      .ok { PricingInfo := [("R1::T1::vpc::linux", { Hours := [{ Price := "0.10" }] })] }
    ParseFloat := fun s => if s = "0.10" then .ok (1 / 10) else .error "invalid syntax" }

/-- The scenario with a provider that has the spot price 0.05 in `zoneA`. -/
def spotUpstream : Upstream :=
  { scenarioUpstream with DescribeSpotPriceHistory := fun _ _ => .ok [("zoneA", 5 / 100)] }

/-- The scenario with a spot price and a provider that lists a second instance
type, `T2`, which the store does not hold yet. -/
def newTypeUpstream : Upstream :=
  { spotUpstream with
    DescribeInstanceTypes := fun _ =>
      .ok [{ InstanceTypeId := "T1"
             CpuArchitecture := { address := 0xc000012340, value := "X86" }
             CpuCoreCount := 2, MemorySize := 8, GPUAmount := 0 },
           { InstanceTypeId := "T2"
             CpuArchitecture := { address := 0xc000012350, value := "ARM" }
             CpuCoreCount := 4, MemorySize := 16, GPUAmount := 0 }]
    DescribeAvailableResource := fun _ => .ok ["T1", "T2"] }

/-- The record of `T1` as `listInstanceTypes` makes it: the shape, no rates. -/
def listedT1 : InstanceTypePrice :=
  { Arch := "amd64", VCPU := 2, Memory := 8, GPU := 0, Zones := ["zoneA"]
    OnDemandPricePerHour := 0, SpotPricePerHour := [] }

/-- The record of `T2` as `listInstanceTypes` makes it: the provider says `ARM`,
line 335 stores `amd64`. -/
def listedT2 : InstanceTypePrice :=
  { Arch := "amd64", VCPU := 4, Memory := 16, GPU := 0, Zones := ["zoneA"]
    OnDemandPricePerHour := 0, SpotPricePerHour := [] }

/-- The client the spot pass makes for `R1` in the scenario. -/
def scenarioECSClient : ECSClient :=
  { AccessKeyId := "ak", AccessKeySecret := "sk", RegionId := "R1" }

/-- The task of the spot pass for `T1` in `R1`. -/
def taskT1 : SpotTask :=
  { region := "R1", client := scenarioECSClient, info := listedT1, instanceType := "T1" }

/-- The task of the spot pass for `T2` in `R1`. -/
def taskT2 : SpotTask :=
  { region := "R1", client := scenarioECSClient, info := listedT2, instanceType := "T2" }

/-- A pricing document whose only key has two "::"-parts. -/
def malformedDocument : ECSPrice :=
  { PricingInfo := [("cn-hangzhou::ecs.g6.large", { Hours := [{ Price := "0.10" }] })] }

/-- The scenario client after a caller of `GetInstancePrice("R1", "T1")` has set
the on-demand rate of the record it was handed to 999. -/
def overwrittenClient : AlibabaCloudPriceClient :=
  (InstanceRef.update scenarioClient (fun r => { r with OnDemandPricePerHour := 999 })
    (.stored "R1" "T1")).1

/-! ## Reads of the price table and single entries of the document -/

/-- The Go read `rate, ok := t[region][instanceType]`: the rate of the table for
a region and an instance type, if it has one. -/
def PriceTable.find? (t : PriceTable) (region instanceType : String) : Option Rate :=
  match t.get? region with
  | none => none
  | some m => m.get? instanceType

/-- The body of the loop of lines 237-253 for one entry of the document: the
write it makes to the table (region, instance type, rate), no write for an entry
that is not a Linux one, the error of `ParseFloat`, or a panic. -/
def getECSPrice.entry (parseFloat : String → Except String Rate)
    (e : String × ECSPriceDetail) : Outcome (Option (String × String × Rate)) :=
  let parts := splitDoubleColon e.1.data []
  match parts[0]? with
  | none => .panic "index out of range [0]"
  | some regions =>
    match parts[3]? with
    | none => .panic "index out of range [3]"
    | some os =>
      match parts[1]? with
      | none => .panic "index out of range [1]"
      | some instanceType =>
        if os = "linux" then
          match e.2.Hours[0]? with
          | none => .panic "index out of range [0]"
          | some hour =>
            match parseFloat hour.Price with
            | .error err => .error err
            | .ok price => .ok (some (regions, instanceType, price))
        else .ok none

/-- What `strconv.ParseFloat` reads from the price strings of the examples. -/
def exampleParseFloat (s : String) : Except String Rate :=
  if s = "0.10" then .ok (1 / 10)
  else if s = "0.20" then .ok (2 / 10)
  else if s = "-0.10" then .ok (-1 / 10)
  else .error "invalid syntax"

/-- Two Linux entries of one document for `T1` in `R1`, one for the `vpc` network
at 0.10 and one for the `classic` network at 0.20. -/
def ambiguousEntries : List (String × ECSPriceDetail) :=
  [("R1::T1::vpc::linux", { Hours := [{ Price := "0.10" }] }),
   ("R1::T1::classic::linux", { Hours := [{ Price := "0.20" }] })]

/-! ## Non-negative rates -/

/-- The rates of a record are non-negative: its on-demand rate and every one of
its spot rates. -/
def InstanceTypePrice.NonnegRates (r : InstanceTypePrice) : Prop :=
  0 ≤ r.OnDemandPricePerHour ∧ ∀ e ∈ r.SpotPricePerHour, 0 ≤ e.2

/-- Every rate of every record of a region to regional record mapping is
non-negative. -/
def NonnegRates (m : GoMap RegionalInstancePrice) : Prop :=
  ∀ e ∈ m, ∀ t ∈ e.2.InstanceTypePrices, t.2.NonnegRates

/-- Every rate of a price table is non-negative. -/
def PriceTable.Nonneg (t : PriceTable) : Prop :=
  ∀ e ∈ t, ∀ x ∈ e.2, 0 ≤ x.2

/-- Every rate the upstream hands to the passes is non-negative: every rate the
table-building loop reads from the pricing document, and every spot price of
the provider's responses. -/
def Upstream.NonnegPrices (up : Upstream) : Prop :=
  (∀ doc, up.fetchPricingDocument = .ok doc → ∀ e ∈ doc.PricingInfo, ∀ w,
    getECSPrice.entry up.ParseFloat e = .ok (some w) → 0 ≤ w.2.2) ∧
  (∀ region instanceType prices,
    up.DescribeSpotPriceHistory region instanceType = .ok prices → ∀ e ∈ prices, 0 ≤ e.2)

/-- Every rate that the three read accessors return is non-negative. -/
def ReturnsNonnegRates (a : AlibabaCloudPriceClient) : Prop :=
  NonnegRates (ListRegionsInstancesPrice a) ∧
  (∀ region m, ListInstancesPrice a region = some m → NonnegRates m) ∧
  (∀ region instanceType p, GetInstancePrice a region instanceType = some p →
    ∃ r, p.load a = some r ∧ r.NonnegRates)

/-- A pricing document with a negative price for `T1` in `R1`. -/
def negativeDocument : ECSPrice :=
  { PricingInfo := [("R1::T1::vpc::linux", { Hours := [{ Price := "-0.10" }] })] }

/-- The scenario with the negative pricing document. -/
def negativeUpstream : Upstream :=
  { scenarioUpstream with
    fetchPricingDocument := .ok negativeDocument
    ParseFloat := exampleParseFloat }

/-- The scenario with a provider that answers a negative spot price. -/
def negativeSpotUpstream : Upstream :=
  { scenarioUpstream with DescribeSpotPriceHistory := fun _ _ => .ok [("zoneA", -5 / 100)] }

/-- The scenario client with records of `T1` whose shape is out of date: one
vCPU, 4 GiB and the zone `zoneOld`, where the provider now lists two vCPUs,
8 GiB and `zoneA`. -/
def staleClient : AlibabaCloudPriceClient :=
  { scenarioClient with
    priceData :=
      [("R1", { InstanceTypePrices :=
          [("T1", { scenarioRecord with VCPU := 1, Memory := 4, Zones := ["zoneOld"] })] }),
       ("R2", { InstanceTypePrices :=
          [("T1", { scenarioRecord with VCPU := 1, Memory := 4, Zones := ["zoneOld"] })] })] }

/-- The scenario with the pricing document whose key has two "::"-parts. -/
def malformedUpstream : Upstream :=
  { scenarioUpstream with fetchPricingDocument := .ok malformedDocument }

/-- Three Linux entries of one document: `T1` in `R1` on the `vpc` and on the
`classic` network, both at 0.10, and `T1` in `R2` at 0.20. -/
def agreeingEntries : List (String × ECSPriceDetail) :=
  [("R1::T1::vpc::linux", { Hours := [{ Price := "0.10" }] }),
   ("R1::T1::classic::linux", { Hours := [{ Price := "0.10" }] }),
   ("R2::T1::vpc::linux", { Hours := [{ Price := "0.20" }] })]

end PriceServer

/-! ## Lemmas on Go maps -/

namespace PriceServer

namespace GoMap

theorem get?_set_self {V : Type} (m : GoMap V) (k : String) (v : V) :
    (m.set k v).get? k = some v := by
  induction m with
  | nil => simp [set, get?]
  | cons e m ih =>
    obtain ⟨k', v'⟩ := e
    by_cases h : k' = k
    · simp [set, get?, h]
    · simp [set, get?, h, ih]

theorem get?_set_ne {V : Type} (m : GoMap V) {k k' : String} (v : V) (h : k' ≠ k) :
    (m.set k v).get? k' = m.get? k' := by
  induction m with
  | nil => simp [set, get?, Ne.symm h]
  | cons e m ih =>
    obtain ⟨k₀, v₀⟩ := e
    by_cases h₀ : k₀ = k
    · subst h₀
      simp [set, get?, Ne.symm h]
    · by_cases h₁ : k₀ = k'
      · subst h₁
        simp [set, get?, h₀]
      · simp [set, get?, h₀, h₁, ih]

theorem set_eq_self {V : Type} (m : GoMap V) {k : String} {v : V} (h : m.get? k = some v) :
    m.set k v = m := by
  induction m with
  | nil => simp [get?] at h
  | cons e m ih =>
    obtain ⟨k₀, v₀⟩ := e
    by_cases h₀ : k₀ = k
    · simp [get?, h₀] at h
      simp [set, h₀, h]
    · simp [get?, h₀] at h
      simp [set, h₀, ih h]

theorem get?_map {V W : Type} (f : String → V → W) (m : GoMap V) (k : String) :
    GoMap.get? (m.map fun e => (e.1, f e.1 e.2)) k = (m.get? k).map (f k) := by
  induction m with
  | nil => simp [get?]
  | cons e m ih =>
    obtain ⟨k₀, v₀⟩ := e
    by_cases h₀ : k₀ = k
    · simp [get?, h₀]
    · simp [get?, h₀, ih]

theorem mem_keys_set {V : Type} (m : GoMap V) (k : String) (v : V) {x : String}
    (h : x ∈ (m.set k v).keys) : x ∈ m.keys ∨ x = k := by
  induction m with
  | nil => simpa [set, keys] using h
  | cons e m ih =>
    obtain ⟨k₀, v₀⟩ := e
    by_cases h₀ : k₀ = k
    · subst h₀
      left
      simpa [set, keys] using h
    · simp only [set, h₀, if_false, keys, List.map_cons, List.mem_cons] at h
      rcases h with h | h
      · left; simp [keys, h]
      · rcases ih h with h | h
        · left; simp only [keys, List.map_cons, List.mem_cons]; exact Or.inr h
        · exact Or.inr h

theorem nodup_keys_set {V : Type} (m : GoMap V) (k : String) (v : V) (h : m.keys.Nodup) :
    (m.set k v).keys.Nodup := by
  induction m with
  | nil => simp [set, keys]
  | cons e m ih =>
    obtain ⟨k₀, v₀⟩ := e
    simp only [keys, List.map_cons, List.nodup_cons] at h
    by_cases h₀ : k₀ = k
    · subst h₀
      simpa [set, keys] using h
    · simp only [set, h₀, if_false, keys, List.map_cons, List.nodup_cons]
      refine ⟨fun hmem => ?_, ih h.2⟩
      rcases mem_keys_set m k v hmem with h' | h'
      · exact h.1 h'
      · exact h₀ h'

theorem get?_of_mem {V : Type} (m : GoMap V) {k : String} {v : V} (hnd : m.keys.Nodup)
    (h : (k, v) ∈ m) : m.get? k = some v := by
  induction m with
  | nil => simp at h
  | cons e m ih =>
    obtain ⟨k₀, v₀⟩ := e
    simp only [keys, List.map_cons, List.nodup_cons] at hnd
    rcases List.mem_cons.1 h with h | h
    · cases h
      simp [get?]
    · have hk : k₀ ≠ k := by
        rintro rfl
        exact hnd.1 (List.mem_map.2 ⟨(k₀, v), h, rfl⟩)
      simp [get?, hk, ih hnd.2 h]

end GoMap

end PriceServer

/-! ## Lemmas on listing and on the on-demand handler -/

namespace PriceServer

theorem createECSClient_congr (up : Upstream) {a b : AlibabaCloudPriceClient}
    (h : a.akskPool = b.akskPool) (region : String) :
    createECSClient up a region = createECSClient up b region := by
  simp [createECSClient, h]

theorem listInstanceTypes_congr (up : Upstream) {a b : AlibabaCloudPriceClient}
    (h : a.akskPool = b.akskPool) (region : String) :
    listInstanceTypes up a region = listInstanceTypes up b region := by
  simp [listInstanceTypes, createECSClient_congr up h region]

/-- Line 335 stores `amd64` for every instance type: the formatted pointer is
neither "X86" nor "ARM". -/
theorem extractECSArch_teaToString (p : StringPointer) :
    extractECSArch (teaToString p) = "amd64" := by
  have hx : teaToString p ≠ "X86" := by
    intro h
    have h' := congrArg String.data h
    simp [teaToString] at h'
  have ha : teaToString p ≠ "ARM" := by
    intro h
    have h' := congrArg String.data h
    simp [teaToString] at h'
  simp [extractECSArch, hx, ha]

theorem listInstanceTypes.fill_nodup (zones supported : List String)
    (items : List InstanceTypeItem) (ret : GoMap InstanceTypePrice) (h : ret.keys.Nodup) :
    (listInstanceTypes.fill zones supported items ret).keys.Nodup := by
  induction items generalizing ret with
  | nil => simpa [listInstanceTypes.fill] using h
  | cons item items ih =>
    unfold listInstanceTypes.fill
    split
    · exact ih ret h
    · exact ih _ (GoMap.nodup_keys_set ret _ _ h)

theorem listInstanceTypes_nodup (up : Upstream) (a : AlibabaCloudPriceClient) (region : String)
    {instanceTypes : GoMap InstanceTypePrice}
    (h : listInstanceTypes up a region = .ok instanceTypes) : instanceTypes.keys.Nodup := by
  unfold listInstanceTypes at h
  split at h
  · cases h
  · split at h
    · cases h
    · split at h
      · cases h
      · split at h
        · cases h
        · cases h
          exact listInstanceTypes.fill_nodup _ _ _ _ (by simp [GoMap.keys])

namespace RefreshOnDemandPrice

theorem attach_congr (priceInfo : PriceTable) {a b : AlibabaCloudPriceClient} {region : String}
    (h : a.priceData.get? region = b.priceData.get? region) (instanceType : String)
    (info : InstanceTypePrice) :
    attach priceInfo a region instanceType info = attach priceInfo b region instanceType info := by
  simp [attach, h]

theorem rebuild_congr (priceInfo : PriceTable) {a b : AlibabaCloudPriceClient} {region : String}
    (h : a.priceData.get? region = b.priceData.get? region)
    (instanceTypes : GoMap InstanceTypePrice) :
    rebuild priceInfo a region instanceTypes = rebuild priceInfo b region instanceTypes := by
  simp [rebuild, attach_congr priceInfo h]

theorem get?_rebuild (priceInfo : PriceTable) (a : AlibabaCloudPriceClient) (region : String)
    (instanceTypes : GoMap InstanceTypePrice) (instanceType : String) :
    (rebuild priceInfo a region instanceTypes).InstanceTypePrices.get? instanceType =
      (instanceTypes.get? instanceType).map (attach priceInfo a region instanceType) := by
  simpa [rebuild] using
    GoMap.get?_map (fun k v => attach priceInfo a region k v) instanceTypes instanceType

theorem handleFunc_akskPool (up : Upstream) (priceInfo : PriceTable)
    (a : AlibabaCloudPriceClient) (region : String) :
    (handleFunc up priceInfo a region).akskPool = a.akskPool := by
  unfold handleFunc
  split <;> rfl

theorem handleFunc_regionList (up : Upstream) (priceInfo : PriceTable)
    (a : AlibabaCloudPriceClient) (region : String) :
    (handleFunc up priceInfo a region).regionList = a.regionList := by
  unfold handleFunc
  split <;> rfl

theorem handleFunc_get?_ne (up : Upstream) (priceInfo : PriceTable)
    (a : AlibabaCloudPriceClient) {region other : String} (h : other ≠ region) :
    (handleFunc up priceInfo a region).priceData.get? other = a.priceData.get? other := by
  unfold handleFunc
  split
  · rfl
  · exact GoMap.get?_set_ne _ _ h

theorem handleFunc_get?_self (up : Upstream) (priceInfo : PriceTable)
    (a : AlibabaCloudPriceClient) {region : String} {instanceTypes : GoMap InstanceTypePrice}
    (h : listInstanceTypes up a region = .ok instanceTypes) :
    (handleFunc up priceInfo a region).priceData.get? region =
      some (rebuild priceInfo a region instanceTypes) := by
  simp [handleFunc, h, GoMap.get?_set_self]

theorem handleFunc_error (up : Upstream) (priceInfo : PriceTable)
    (a : AlibabaCloudPriceClient) {region : String} {e : String}
    (h : listInstanceTypes up a region = .error e) :
    handleFunc up priceInfo a region = a := by
  simp [handleFunc, h]

/-- Rebuilding a region from a store that already holds the rebuilt region gives
the same region again. -/
theorem rebuild_idem (priceInfo : PriceTable) (a b : AlibabaCloudPriceClient) (region : String)
    (instanceTypes : GoMap InstanceTypePrice) (hnd : instanceTypes.keys.Nodup)
    (h : b.priceData.get? region = some (rebuild priceInfo a region instanceTypes)) :
    rebuild priceInfo b region instanceTypes = rebuild priceInfo a region instanceTypes := by
  unfold rebuild
  congr 1
  apply List.map_congr_left
  rintro ⟨k, info⟩ hmem
  have hk : instanceTypes.get? k = some info := GoMap.get?_of_mem _ hnd hmem
  have hb : (rebuild priceInfo a region instanceTypes).InstanceTypePrices.get? k =
      some (attach priceInfo a region k info) := by
    rw [get?_rebuild, hk]; rfl
  cases h1 : a.priceData.get? region with
  | none => simp [attach, h, hb, h1]
  | some regionData =>
    cases h2 : regionData.InstanceTypePrices.get? k with
    | none => simp [attach, h, hb, h1, h2]
    | some stored => simp [attach, h, hb, h1, h2]

theorem process_akskPool (up : Upstream) (priceInfo : PriceTable) (regions : List String)
    (a : AlibabaCloudPriceClient) :
    (ParallelTask.Process (handleFunc up priceInfo) regions a).akskPool = a.akskPool := by
  induction regions generalizing a with
  | nil => rfl
  | cons r rest ih =>
    simp only [ParallelTask.Process, List.foldl_cons] at ih ⊢
    rw [ih, handleFunc_akskPool]

theorem process_regionList (up : Upstream) (priceInfo : PriceTable) (regions : List String)
    (a : AlibabaCloudPriceClient) :
    (ParallelTask.Process (handleFunc up priceInfo) regions a).regionList = a.regionList := by
  induction regions generalizing a with
  | nil => rfl
  | cons r rest ih =>
    simp only [ParallelTask.Process, List.foldl_cons] at ih ⊢
    rw [ih, handleFunc_regionList]

/-- After a batch, a region whose listing succeeds holds the region rebuilt from
the store of before the batch, if the batch has a task for it. -/
theorem process_get? (up : Upstream) (priceInfo : PriceTable) (regions : List String)
    (a : AlibabaCloudPriceClient) {region : String} {instanceTypes : GoMap InstanceTypePrice}
    (h : listInstanceTypes up a region = .ok instanceTypes) :
    (ParallelTask.Process (handleFunc up priceInfo) regions a).priceData.get? region =
      if region ∈ regions then some (rebuild priceInfo a region instanceTypes)
      else a.priceData.get? region := by
  induction regions generalizing a with
  | nil => simp [ParallelTask.Process]
  | cons r rest ih =>
    have hlist : listInstanceTypes up (handleFunc up priceInfo a r) region = .ok instanceTypes := by
      rw [listInstanceTypes_congr up (handleFunc_akskPool up priceInfo a r)]
      exact h
    have ih' := ih (handleFunc up priceInfo a r) hlist
    simp only [ParallelTask.Process, List.foldl_cons] at ih' ⊢
    rw [ih']
    by_cases hr : region = r
    · subst hr
      have hself := handleFunc_get?_self up priceInfo a h
      by_cases hmem : region ∈ rest
      · simp only [hmem, if_true, List.mem_cons, true_or, or_true]
        rw [rebuild_idem priceInfo a _ region instanceTypes
          (listInstanceTypes_nodup up a region h) hself]
      · simp [hmem, hself]
    · have hne := handleFunc_get?_ne up priceInfo a hr
      by_cases hmem : region ∈ rest
      · simp only [hmem, if_true, List.mem_cons, or_true]
        rw [rebuild_congr priceInfo hne]
      · simp [hmem, hr, hne]

/-- A batch leaves a region whose listing fails as it was. -/
theorem process_get?_error (up : Upstream) (priceInfo : PriceTable) (regions : List String)
    (a : AlibabaCloudPriceClient) {region : String} {e : String}
    (h : listInstanceTypes up a region = .error e) :
    (ParallelTask.Process (handleFunc up priceInfo) regions a).priceData.get? region =
      a.priceData.get? region := by
  induction regions generalizing a with
  | nil => rfl
  | cons r rest ih =>
    have hlist : listInstanceTypes up (handleFunc up priceInfo a r) region = .error e := by
      rw [listInstanceTypes_congr up (handleFunc_akskPool up priceInfo a r)]
      exact h
    have ih' := ih (handleFunc up priceInfo a r) hlist
    simp only [ParallelTask.Process, List.foldl_cons] at ih' ⊢
    rw [ih']
    by_cases hr : region = r
    · subst hr
      rw [handleFunc_error up priceInfo a h]
    · exact handleFunc_get?_ne up priceInfo a hr

/-- A batch of handlers that each leave the client as it is leaves it as it is. -/
theorem process_fixed (up : Upstream) (priceInfo : PriceTable) (regions : List String)
    (a : AlibabaCloudPriceClient)
    (h : ∀ r ∈ regions, handleFunc up priceInfo a r = a) :
    ParallelTask.Process (handleFunc up priceInfo) regions a = a := by
  induction regions with
  | nil => rfl
  | cons r rest ih =>
    simp only [ParallelTask.Process, List.foldl_cons] at ih ⊢
    rw [h r (List.mem_cons_self _ _)]
    exact ih fun r' hr' => h r' (List.mem_cons_of_mem _ hr')

end RefreshOnDemandPrice

end PriceServer

/-! ## The on-demand pass -/

namespace PriceServer

theorem RefreshOnDemandPrice.attach_onDemand (priceInfo : PriceTable)
    (a : AlibabaCloudPriceClient) (region instanceType : String) (info : InstanceTypePrice) :
    (attach priceInfo a region instanceType info).OnDemandPricePerHour =
      priceInfo.rate region instanceType := by
  unfold attach
  split
  · rfl
  · split <;> rfl

theorem RefreshOnDemandPrice.attach_spot (priceInfo : PriceTable)
    (a : AlibabaCloudPriceClient) (region instanceType : String) (info stored : InstanceTypePrice)
    (h : a.stored? region instanceType = some stored) :
    (attach priceInfo a region instanceType info).SpotPricePerHour = stored.SpotPricePerHour := by
  unfold AlibabaCloudPriceClient.stored? at h
  unfold attach
  split
  · rename_i h1; simp [h1] at h
  · rename_i regionData h1
    simp only [h1] at h
    simp [h]

theorem RefreshOnDemandPrice.handleFunc_fixed (up : Upstream) (priceInfo : PriceTable)
    (a : AlibabaCloudPriceClient) (regions : List String) {region : String}
    (hmem : region ∈ regions) :
    handleFunc up priceInfo (ParallelTask.Process (handleFunc up priceInfo) regions a) region =
      ParallelTask.Process (handleFunc up priceInfo) regions a := by
  have hpool := process_akskPool up priceInfo regions a
  cases hl : listInstanceTypes up a region with
  | error e =>
    exact handleFunc_error up priceInfo _ ((listInstanceTypes_congr up hpool region).trans hl)
  | ok instanceTypes =>
    have hl' := (listInstanceTypes_congr up hpool region).trans hl
    have hget := process_get? up priceInfo regions a hl
    simp only [hmem, if_true] at hget
    have hidem := rebuild_idem priceInfo a _ region instanceTypes
      (listInstanceTypes_nodup up a region hl) hget
    simp only [handleFunc, hl', hidem, GoMap.set_eq_self _ hget]

/-- C1. On-demand pass, carry-forward: when the price table is fetched, for a
region of the region list whose listing succeeds and an instance type of that
listing, the pass ends and the stored record of the instance type has the rate
of the table for (region, instance type) and, if the instance type was stored
in the region before the pass, the spot mapping it had then. -/
theorem C1_onDemand_carries_spot_forward (up : Upstream) (a : AlibabaCloudPriceClient)
    (priceInfo : PriceTable) (region instanceType : String)
    (instanceTypes : GoMap InstanceTypePrice) (info : InstanceTypePrice)
    (hprice : getECSPrice up = .ok priceInfo)
    (hregion : region ∈ a.regionList)
    (hlist : listInstanceTypes up a region = .ok instanceTypes)
    (hin : instanceTypes.get? instanceType = some info) :
    ∃ a' record, RefreshOnDemandPrice up a = .ok a' ∧
      a'.stored? region instanceType = some record ∧
      record.OnDemandPricePerHour = priceInfo.rate region instanceType ∧
      ∀ old, a.stored? region instanceType = some old →
        record.SpotPricePerHour = old.SpotPricePerHour := by
  refine ⟨ParallelTask.Process (RefreshOnDemandPrice.handleFunc up priceInfo) a.regionList a,
    RefreshOnDemandPrice.attach priceInfo a region instanceType info, ?_, ?_, ?_, ?_⟩
  · simp only [RefreshOnDemandPrice, hprice]
  · have hget := RefreshOnDemandPrice.process_get? up priceInfo a.regionList a hlist
    simp only [hregion, if_true] at hget
    simp only [AlibabaCloudPriceClient.stored?, hget, RefreshOnDemandPrice.get?_rebuild, hin,
      Option.map_some']
  · exact RefreshOnDemandPrice.attach_onDemand priceInfo a region instanceType info
  · intro old hold
    exact RefreshOnDemandPrice.attach_spot priceInfo a region instanceType info old hold

/-- C1 at the scenario: `R1`/`T1` = {onDemand 0.096, spot {zoneA: 0.03}} with the
fetched rate 0.10 gives {onDemand 0.10, spot {zoneA: 0.03}}. -/
theorem C1_onDemand_carries_spot_forward_witness :
    getECSPrice scenarioUpstream = .ok [("R1", [("T1", 1 / 10)])] ∧
    scenarioClient.stored? "R1" "T1" = some scenarioRecord ∧
    (∃ a', RefreshOnDemandPrice scenarioUpstream scenarioClient = .ok a' ∧
      a'.stored? "R1" "T1" = some { scenarioRecord with OnDemandPricePerHour := 1 / 10 }) ∧
    ∃ a' record, RefreshOnDemandPrice scenarioUpstream scenarioClient = .ok a' ∧
      a'.stored? "R1" "T1" = some record ∧
      record.OnDemandPricePerHour =
        PriceTable.rate [("R1", [("T1", 1 / 10)])] "R1" "T1" ∧
      ∀ old, scenarioClient.stored? "R1" "T1" = some old →
        record.SpotPricePerHour = old.SpotPricePerHour :=
  ⟨rfl, rfl, ⟨_, rfl, rfl⟩,
    C1_onDemand_carries_spot_forward scenarioUpstream scenarioClient
      [("R1", [("T1", 1 / 10)])] "R1" "T1"
      [("T1", { scenarioRecord with OnDemandPricePerHour := 0, SpotPricePerHour := [] })]
      { scenarioRecord with OnDemandPricePerHour := 0, SpotPricePerHour := [] }
      rfl (by decide) rfl rfl⟩

/-- C2. On-demand pass, the listing is authoritative: when the price table is
fetched, for a region of the region list whose listing succeeds, the pass ends
and the instance types stored for the region are exactly those of the listing;
an instance type that is not in the listing has no stored record afterwards. -/
theorem C2_onDemand_listing_is_authoritative (up : Upstream) (a : AlibabaCloudPriceClient)
    (priceInfo : PriceTable) (region : String) (instanceTypes : GoMap InstanceTypePrice)
    (hprice : getECSPrice up = .ok priceInfo)
    (hregion : region ∈ a.regionList)
    (hlist : listInstanceTypes up a region = .ok instanceTypes) :
    ∃ a' regionData, RefreshOnDemandPrice up a = .ok a' ∧
      a'.priceData.get? region = some regionData ∧
      (∀ instanceType,
        regionData.InstanceTypePrices.has instanceType = instanceTypes.has instanceType) ∧
      ∀ instanceType, instanceTypes.has instanceType = false →
        a'.stored? region instanceType = none := by
  have hget := RefreshOnDemandPrice.process_get? up priceInfo a.regionList a hlist
  simp only [hregion, if_true] at hget
  refine ⟨ParallelTask.Process (RefreshOnDemandPrice.handleFunc up priceInfo) a.regionList a,
    RefreshOnDemandPrice.rebuild priceInfo a region instanceTypes, ?_, hget, ?_, ?_⟩
  · simp only [RefreshOnDemandPrice, hprice]
  · intro instanceType
    simp [GoMap.has, RefreshOnDemandPrice.get?_rebuild]
  · intro instanceType hnot
    have hnone : instanceTypes.get? instanceType = none := by
      cases h : instanceTypes.get? instanceType with
      | none => rfl
      | some v => simp [GoMap.has, h] at hnot
    simp [AlibabaCloudPriceClient.stored?, hget, RefreshOnDemandPrice.get?_rebuild, hnone]

/-- C2 at the scenario with a second stored instance type `T0` that the listing
of `R1` does not have: after the pass `R1` holds `T1` only. -/
theorem C2_onDemand_listing_is_authoritative_witness :
    (∃ a', RefreshOnDemandPrice scenarioUpstream
        { scenarioClient with priceData :=
            [("R1", { InstanceTypePrices := [("T0", scenarioRecord), ("T1", scenarioRecord)] })] }
          = .ok a' ∧
      a'.stored? "R1" "T0" = none ∧
      a'.priceData.get? "R1" = some { InstanceTypePrices :=
        [("T1", { scenarioRecord with OnDemandPricePerHour := 1 / 10 })] }) ∧
    ∃ a' regionData, RefreshOnDemandPrice scenarioUpstream
        { scenarioClient with priceData :=
            [("R1", { InstanceTypePrices := [("T0", scenarioRecord), ("T1", scenarioRecord)] })] }
          = .ok a' ∧
      a'.priceData.get? "R1" = some regionData ∧
      (∀ instanceType, regionData.InstanceTypePrices.has instanceType =
        GoMap.has
          [("T1", { scenarioRecord with OnDemandPricePerHour := 0, SpotPricePerHour := [] })]
          instanceType) ∧
      ∀ instanceType,
        GoMap.has
          [("T1", { scenarioRecord with OnDemandPricePerHour := 0, SpotPricePerHour := [] })]
          instanceType = false →
        a'.stored? "R1" instanceType = none :=
  ⟨⟨_, rfl, rfl, rfl⟩,
    C2_onDemand_listing_is_authoritative scenarioUpstream _
      [("R1", [("T1", 1 / 10)])] "R1" _ rfl (by decide) rfl⟩

/-- The record the on-demand handler makes for an instance type of the listing:
the listing's record with the rate of the table and, when the instance type is
stored in the region, the stored spot mapping. -/
theorem RefreshOnDemandPrice.attach_eq (priceInfo : PriceTable)
    (a : AlibabaCloudPriceClient) (region instanceType : String) (info : InstanceTypePrice) :
    attach priceInfo a region instanceType info =
      { info with
        OnDemandPricePerHour := priceInfo.rate region instanceType
        SpotPricePerHour :=
          match a.stored? region instanceType with
          | some old => old.SpotPricePerHour
          | none => info.SpotPricePerHour } := by
  unfold attach AlibabaCloudPriceClient.stored?
  cases hr : a.priceData.get? region with
  | none => rfl
  | some regionData =>
    cases hi : regionData.InstanceTypePrices.get? instanceType with
    | none => simp [hi]
    | some stored => simp [hi]

/-- C6. Failure isolation in the on-demand pass: when the price table is fetched,
the listing of one region returns an error and the listing of every other
region of the region list succeeds, the pass ends, the failing region is stored
as before the pass (or still not stored), and every other region of the region
list holds the record built from its new listing: for every instance type of
the listing, in the listing's order, the listing's shape, the rate of the price
table, and the spot mapping stored before the pass if the instance type was
stored (the listing's empty one otherwise). -/
theorem C6_onDemand_failure_isolation (up : Upstream) (a : AlibabaCloudPriceClient)
    (priceInfo : PriceTable) (failing : String) (e : String)
    (hprice : getECSPrice up = .ok priceInfo)
    (hfail : listInstanceTypes up a failing = .error e)
    (hothers : ∀ region ∈ a.regionList, region ≠ failing →
      ∃ instanceTypes, listInstanceTypes up a region = .ok instanceTypes) :
    ∃ a', RefreshOnDemandPrice up a = .ok a' ∧
      a'.priceData.get? failing = a.priceData.get? failing ∧
      ∀ region ∈ a.regionList, region ≠ failing →
        ∃ instanceTypes, listInstanceTypes up a region = .ok instanceTypes ∧
          a'.priceData.get? region =
            some { InstanceTypePrices := instanceTypes.map fun listed =>
              (listed.1,
                { listed.2 with
                  OnDemandPricePerHour := priceInfo.rate region listed.1
                  SpotPricePerHour :=
                    match a.stored? region listed.1 with
                    | some old => old.SpotPricePerHour
                    | none => listed.2.SpotPricePerHour }) } := by
  refine ⟨ParallelTask.Process (RefreshOnDemandPrice.handleFunc up priceInfo) a.regionList a,
    ?_, ?_, ?_⟩
  · simp only [RefreshOnDemandPrice, hprice]
  · exact RefreshOnDemandPrice.process_get?_error up priceInfo a.regionList a hfail
  · intro region hregion hne
    obtain ⟨instanceTypes, hlist⟩ := hothers region hregion hne
    refine ⟨instanceTypes, hlist, ?_⟩
    have hget := RefreshOnDemandPrice.process_get? up priceInfo a.regionList a hlist
    simp only [hregion, if_true] at hget
    rw [hget]
    simp only [RefreshOnDemandPrice.rebuild, RefreshOnDemandPrice.attach_eq]

/-- C6 at the scenario with stored records of an outdated shape: the listing of
`R2` fails and `R2` keeps its record, shape and rate as they were, while `R1`
holds the record built from its listing, with the new shape, the fetched rate
0.10 and the spot mapping stored before. -/
theorem C6_onDemand_failure_isolation_witness :
    listInstanceTypes scenarioUpstream staleClient "R2" = .error "ServiceUnavailable" ∧
    listInstanceTypes scenarioUpstream staleClient "R1" = .ok [("T1", listedT1)] ∧
    RefreshOnDemandPrice scenarioUpstream staleClient = .ok
      { staleClient with priceData :=
          [("R1", { InstanceTypePrices :=
              [("T1", { Arch := "amd64", VCPU := 2, Memory := 8, GPU := 0, Zones := ["zoneA"]
                        OnDemandPricePerHour := 1 / 10
                        SpotPricePerHour := [("zoneA", 3 / 100)] })] }),
           ("R2", { InstanceTypePrices :=
              [("T1", { Arch := "amd64", VCPU := 1, Memory := 4, GPU := 0, Zones := ["zoneOld"]
                        OnDemandPricePerHour := 96 / 1000
                        SpotPricePerHour := [("zoneA", 3 / 100)] })] })] } ∧
    ∃ a', RefreshOnDemandPrice scenarioUpstream staleClient = .ok a' ∧
      a'.priceData.get? "R2" = staleClient.priceData.get? "R2" ∧
      ∀ region ∈ staleClient.regionList, region ≠ "R2" →
        ∃ instanceTypes, listInstanceTypes scenarioUpstream staleClient region
            = .ok instanceTypes ∧
          a'.priceData.get? region =
            some { InstanceTypePrices := instanceTypes.map fun listed =>
              (listed.1,
                { listed.2 with
                  OnDemandPricePerHour :=
                    PriceTable.rate [("R1", [("T1", 1 / 10)])] region listed.1
                  SpotPricePerHour :=
                    match staleClient.stored? region listed.1 with
                    | some old => old.SpotPricePerHour
                    | none => listed.2.SpotPricePerHour }) } :=
  ⟨rfl, rfl, rfl,
    C6_onDemand_failure_isolation scenarioUpstream staleClient
      [("R1", [("T1", 1 / 10)])] "R2" "ServiceUnavailable" rfl rfl
      (by
        intro region hregion hne
        have hR1 : region = "R1" := by
          simp only [staleClient, scenarioClient, List.mem_cons, List.mem_singleton] at hregion
          rcases hregion with h | h | h
          · exact h
          · exact absurd h hne
          · cases h
        subst hR1
        exact ⟨_, rfl⟩)⟩

/-- C7. Idempotence of the on-demand pass: against one and the same upstream
(region list, listings and pricing document), when `getECSPrice` returns, a
first pass ends with a client `a₁` and a second pass run on `a₁` ends with
`a₁` again. -/
theorem C7_onDemand_idempotent (up : Upstream) (a : AlibabaCloudPriceClient)
    (hret : ∀ msg, getECSPrice up ≠ .panic msg) :
    ∃ a₁, RefreshOnDemandPrice up a = .ok a₁ ∧ RefreshOnDemandPrice up a₁ = .ok a₁ := by
  cases hprice : getECSPrice up with
  | panic msg => exact absurd hprice (hret msg)
  | error e => exact ⟨a, by simp only [RefreshOnDemandPrice, hprice], by
      simp only [RefreshOnDemandPrice, hprice]⟩
  | ok priceInfo =>
    refine ⟨ParallelTask.Process (RefreshOnDemandPrice.handleFunc up priceInfo) a.regionList a,
      by simp only [RefreshOnDemandPrice, hprice], ?_⟩
    simp only [RefreshOnDemandPrice, hprice, RefreshOnDemandPrice.process_regionList]
    congr 1
    exact RefreshOnDemandPrice.process_fixed up priceInfo a.regionList _
      fun r hr => RefreshOnDemandPrice.handleFunc_fixed up priceInfo a a.regionList hr

/-- C7 at the scenario: the second pass leaves the store of the first pass. -/
theorem C7_onDemand_idempotent_witness :
    (∀ msg, getECSPrice scenarioUpstream ≠ .panic msg) ∧
    ∃ a₁, RefreshOnDemandPrice scenarioUpstream scenarioClient = .ok a₁ ∧
      RefreshOnDemandPrice scenarioUpstream a₁ = .ok a₁ :=
  have hret : ∀ msg, getECSPrice scenarioUpstream ≠ .panic msg := fun _ h =>
    Outcome.noConfusion
      ((rfl : getECSPrice scenarioUpstream = .ok [("R1", [("T1", 1 / 10)])]).symm.trans h)
  ⟨hret, C7_onDemand_idempotent scenarioUpstream scenarioClient hret⟩

/-! ## Configuration failures -/

theorem createECSClient_empty_pool (up : Upstream) (a : AlibabaCloudPriceClient)
    (h : a.akskPool = []) (region : String) :
    createECSClient up a region = .error "failed to create ecs client" := by
  simp [createECSClient, h]

theorem listInstanceTypes_empty_pool (up : Upstream) (a : AlibabaCloudPriceClient)
    (h : a.akskPool = []) (region : String) :
    listInstanceTypes up a region = .error "failed to create ecs client" := by
  simp [listInstanceTypes, createECSClient_empty_pool up a h]

theorem refreshSpotPrice.instanceTypesMap_empty_pool (up : Upstream)
    (a : AlibabaCloudPriceClient) (h : a.akskPool = []) (regions : List String)
    (instanceTypesMap : GoMap (GoMap InstanceTypePrice)) :
    ParallelTask.Process (refreshSpotPrice.instanceTypesMapHandleFunc up a) regions
      instanceTypesMap = instanceTypesMap := by
  induction regions with
  | nil => rfl
  | cons r rest ih =>
    simp only [ParallelTask.Process, List.foldl_cons] at ih ⊢
    simpa only [refreshSpotPrice.instanceTypesMapHandleFunc,
      listInstanceTypes_empty_pool up a h] using ih

/-- What holds of a configuration failure: with an empty credential pool or an
empty region list, the spot pass returns the client it was given and the
on-demand pass, when `getECSPrice` returns, ends with the client it was given;
the on-demand pass also ends with the client it was given when the price fetch
returns an error. -/
theorem configuration_failure_keeps_store (up : Upstream) (a : AlibabaCloudPriceClient) :
    ((a.akskPool = [] ∨ a.regionList = []) →
      refreshSpotPrice up a = a ∧
      ((∀ msg, getECSPrice up ≠ .panic msg) → RefreshOnDemandPrice up a = .ok a)) ∧
    (∀ e, getECSPrice up = .error e → RefreshOnDemandPrice up a = .ok a) := by
  refine ⟨fun hcfg => ⟨?_, fun hret => ?_⟩, fun e he => ?_⟩
  · rcases hcfg with hpool | hregions
    · unfold refreshSpotPrice
      simp only [refreshSpotPrice.instanceTypesMap_empty_pool up a hpool]
      rfl
    · simp only [refreshSpotPrice, hregions, ParallelTask.Process, List.foldl_nil,
        refreshSpotPrice.tasks]
  · cases hprice : getECSPrice up with
    | panic msg => exact absurd hprice (hret msg)
    | error e => simp only [RefreshOnDemandPrice, hprice]
    | ok priceInfo =>
      simp only [RefreshOnDemandPrice, hprice]
      congr 1
      rcases hcfg with hpool | hregions
      · exact RefreshOnDemandPrice.process_fixed up priceInfo a.regionList a fun r _ =>
          RefreshOnDemandPrice.handleFunc_error up priceInfo a
            (listInstanceTypes_empty_pool up a hpool r)
      · simp only [hregions, ParallelTask.Process, List.foldl_nil]
  · simp only [RefreshOnDemandPrice, he]

/-- The scenario with the credential pool emptied, with the region list emptied,
and with a pricing document that cannot be fetched: the passes leave the client
as it was. -/
theorem configuration_failure_keeps_store_scenario :
    (refreshSpotPrice scenarioUpstream { scenarioClient with akskPool := [] }
        = { scenarioClient with akskPool := [] } ∧
      RefreshOnDemandPrice scenarioUpstream { scenarioClient with akskPool := [] }
        = .ok { scenarioClient with akskPool := [] }) ∧
    (refreshSpotPrice scenarioUpstream { scenarioClient with regionList := [] }
        = { scenarioClient with regionList := [] } ∧
      RefreshOnDemandPrice scenarioUpstream { scenarioClient with regionList := [] }
        = .ok { scenarioClient with regionList := [] }) ∧
    RefreshOnDemandPrice { scenarioUpstream with fetchPricingDocument := .error "timeout" }
      scenarioClient = .ok scenarioClient :=
  have hret : ∀ msg, getECSPrice scenarioUpstream ≠ .panic msg := fun _ h =>
    Outcome.noConfusion
      ((rfl : getECSPrice scenarioUpstream = .ok [("R1", [("T1", 1 / 10)])]).symm.trans h)
  ⟨⟨((configuration_failure_keeps_store scenarioUpstream
        { scenarioClient with akskPool := [] }).1 (Or.inl rfl)).1,
     ((configuration_failure_keeps_store scenarioUpstream
        { scenarioClient with akskPool := [] }).1 (Or.inl rfl)).2 hret⟩,
   ⟨((configuration_failure_keeps_store scenarioUpstream
        { scenarioClient with regionList := [] }).1 (Or.inr rfl)).1,
     ((configuration_failure_keeps_store scenarioUpstream
        { scenarioClient with regionList := [] }).1 (Or.inr rfl)).2 hret⟩,
   (configuration_failure_keeps_store
      { scenarioUpstream with fetchPricingDocument := .error "timeout" } scenarioClient).2
      "timeout" rfl⟩

/-- C8, at a failing input. The region list is empty (or the credential pool is)
and the pricing document has a key with two "::"-parts. Line 259 calls
`getECSPrice` before any region or credential is looked at, and the
table-building loop indexes `parts[3]` out of range: the on-demand pass ends in
a panic, it does not finish with the store of before. The spot pass on the same
input returns the client unchanged, and so does the on-demand pass when the
document is well formed. -/
theorem C8_onDemand_pass_panics_on_configuration_failure :
    ({ scenarioClient with regionList := [] } : AlibabaCloudPriceClient).regionList = [] ∧
    RefreshOnDemandPrice malformedUpstream { scenarioClient with regionList := [] }
      = .panic "index out of range [3]" ∧
    RefreshOnDemandPrice malformedUpstream { scenarioClient with akskPool := [] }
      = .panic "index out of range [3]" ∧
    refreshSpotPrice malformedUpstream { scenarioClient with regionList := [] }
      = { scenarioClient with regionList := [] } ∧
    refreshSpotPrice malformedUpstream { scenarioClient with akskPool := [] }
      = { scenarioClient with akskPool := [] } ∧
    RefreshOnDemandPrice scenarioUpstream { scenarioClient with regionList := [] }
      = .ok { scenarioClient with regionList := [] } :=
  ⟨rfl, rfl, rfl, rfl, rfl, rfl⟩

/-! ## The spot pass -/

theorem refreshSpotPrice.priceHandleFunc_error (up : Upstream) (a : AlibabaCloudPriceClient)
    (t : SpotTask) {e : String}
    (h : getSpotPrice up t.client t.region t.instanceType = .error e) :
    priceHandleFunc up a t = a := by
  simp only [priceHandleFunc, h]

/-- After a fetch that returns without error, the stored record is the task's
listing record with the fetched spot mapping. -/
theorem refreshSpotPrice.priceHandleFunc_stored (up : Upstream) (a : AlibabaCloudPriceClient)
    (t : SpotTask) {spotPrice : GoMap Rate}
    (h : getSpotPrice up t.client t.region t.instanceType = .ok spotPrice) :
    (priceHandleFunc up a t).stored? t.region t.instanceType =
      some { t.info with SpotPricePerHour := spotPrice } := by
  simp only [priceHandleFunc, h, AlibabaCloudPriceClient.stored?, GoMap.get?_set_self]

/-- The handler does not touch the other regions. -/
theorem refreshSpotPrice.priceHandleFunc_other_region (up : Upstream)
    (a : AlibabaCloudPriceClient) (t : SpotTask) {region : String} (h : region ≠ t.region) :
    (priceHandleFunc up a t).priceData.get? region = a.priceData.get? region := by
  unfold priceHandleFunc
  split
  · rfl
  · simp only
    rw [GoMap.get?_set_ne _ _ h]
    split
    · rfl
    · exact GoMap.get?_set_ne _ _ h

/-- C3, at a failing input. `R1`/`T1` is stored with the on-demand rate 0.096;
the provider lists `T1` and has the spot price 0.05 in `zoneA`. The handler,
run on the task the pass makes for `T1`, stores the listing record with the new
spot mapping: the on-demand rate of the stored record is 0, not 0.096. The whole
spot pass ends with the same record. -/
theorem C3_spot_pass_resets_onDemand_rate :
    scenarioClient.stored? "R1" "T1" = some scenarioRecord ∧
    scenarioRecord.OnDemandPricePerHour = 96 / 1000 ∧
    refreshSpotPrice.tasks spotUpstream scenarioClient
      (ParallelTask.Process (refreshSpotPrice.instanceTypesMapHandleFunc spotUpstream
        scenarioClient) scenarioClient.regionList []) = [taskT1] ∧
    getSpotPrice spotUpstream taskT1.client "R1" "T1" = .ok [("zoneA", 5 / 100)] ∧
    (refreshSpotPrice.priceHandleFunc spotUpstream scenarioClient taskT1).stored? "R1" "T1" =
      some { scenarioRecord with
        OnDemandPricePerHour := 0, SpotPricePerHour := [("zoneA", 5 / 100)] } ∧
    (refreshSpotPrice spotUpstream scenarioClient).stored? "R1" "T1" =
      some { scenarioRecord with
        OnDemandPricePerHour := 0, SpotPricePerHour := [("zoneA", 5 / 100)] } ∧
    (0 : Rate) ≠ 96 / 1000 :=
  ⟨rfl, rfl, rfl, rfl, rfl, rfl, by norm_num⟩

/-- When the fetch returns and the instance type is not stored in the region, the
handler leaves the region with that one instance type: lines 151-153 have
replaced the region's map by an empty one. -/
theorem refreshSpotPrice.priceHandleFunc_not_stored (up : Upstream)
    (a : AlibabaCloudPriceClient) (t : SpotTask) {spotPrice : GoMap Rate}
    (h : getSpotPrice up t.client t.region t.instanceType = .ok spotPrice)
    (hnot : a.stored? t.region t.instanceType = none) :
    (priceHandleFunc up a t).priceData.get? t.region =
      some { InstanceTypePrices :=
        [(t.instanceType, { t.info with SpotPricePerHour := spotPrice })] } := by
  unfold AlibabaCloudPriceClient.stored? at hnot
  simp only [priceHandleFunc, h, GoMap.get?_set_self]
  cases hr : a.priceData.get? t.region with
  | none => simp [GoMap.has, hr, GoMap.get?_set_self, GoMap.get?, GoMap.set]
  | some regionData =>
    simp only [hr] at hnot
    simp [GoMap.has, hr, hnot, GoMap.set]

/-- C4, at a failing input. `R1` holds `T1`, and `T2` is not stored; the provider
lists `T1` and `T2`, so the spot pass makes a task for `T2`. The handler, run on
that task, finds `T2` not stored and replaces the instance-type map of `R1` by
an empty one (lines 151-153) before it writes `T2`: `T1` is no longer stored.
In whichever order the tasks for `T1` and `T2` run, the instance type written
first is gone at the end. -/
theorem C4_spot_pass_deletes_other_instance_types :
    scenarioClient.stored? "R1" "T1" = some scenarioRecord ∧
    scenarioClient.stored? "R1" "T2" = none ∧
    taskT2 ∈ refreshSpotPrice.tasks newTypeUpstream scenarioClient
      (ParallelTask.Process (refreshSpotPrice.instanceTypesMapHandleFunc newTypeUpstream
        scenarioClient) scenarioClient.regionList []) ∧
    getSpotPrice newTypeUpstream taskT2.client "R1" "T2" = .ok [("zoneA", 5 / 100)] ∧
    (refreshSpotPrice.priceHandleFunc newTypeUpstream scenarioClient taskT2).stored? "R1" "T1"
      = none ∧
    (refreshSpotPrice.priceHandleFunc newTypeUpstream scenarioClient taskT2).priceData.get? "R1"
      = some { InstanceTypePrices :=
          [("T2", { listedT2 with SpotPricePerHour := [("zoneA", 5 / 100)] })] } ∧
    (ParallelTask.Process (refreshSpotPrice.priceHandleFunc newTypeUpstream) [taskT1, taskT2]
      scenarioClient).stored? "R1" "T1" = none ∧
    (ParallelTask.Process (refreshSpotPrice.priceHandleFunc newTypeUpstream) [taskT2, taskT1]
      scenarioClient).stored? "R1" "T2" = none := by
  refine ⟨rfl, rfl, ?_, rfl, rfl, rfl, rfl, rfl⟩
  decide

/-- C9, counterexample. `R1`/`T1` = {onDemand 0.096, spot {zoneA: 0.03}} and the
provider reports no spot price (`getSpotPrice` returns nil without error). The
handler does not return early: the record stored afterwards is the listing
record with a nil spot mapping, not the record of before. -/
theorem C9_no_spot_price_counterexample :
    scenarioClient.stored? "R1" "T1" = some scenarioRecord ∧
    scenarioRecord.SpotPricePerHour = [("zoneA", 3 / 100)] ∧
    getSpotPrice scenarioUpstream taskT1.client "R1" "T1" = .ok [] ∧
    (refreshSpotPrice.priceHandleFunc scenarioUpstream scenarioClient taskT1).stored? "R1" "T1"
      = some listedT1 ∧
    (refreshSpotPrice.priceHandleFunc scenarioUpstream scenarioClient taskT1).stored? "R1" "T1"
      ≠ scenarioClient.stored? "R1" "T1" := by
  refine ⟨rfl, rfl, rfl, rfl, ?_⟩
  rw [show (refreshSpotPrice.priceHandleFunc scenarioUpstream scenarioClient taskT1).stored?
      "R1" "T1" = some listedT1 from rfl,
    show scenarioClient.stored? "R1" "T1" = some scenarioRecord from rfl]
  intro h
  have hspot := congrArg (fun r => r.SpotPricePerHour) (Option.some.inj h)
  simp [listedT1, scenarioRecord] at hspot

/-- C9, amended. For a stored instance type: if the spot fetch fails, the
handler leaves the client as it was, so the stored record is the one of before;
if `getSpotPrice` reports no spot price (nil without error), the handler goes
on as after a successful fetch and the record stored afterwards has an empty
spot mapping. -/
theorem C9_spot_fetch_without_price (up : Upstream) (a : AlibabaCloudPriceClient)
    (t : SpotTask) (record : InstanceTypePrice)
    (hstored : a.stored? t.region t.instanceType = some record) :
    (∀ e, getSpotPrice up t.client t.region t.instanceType = .error e →
      refreshSpotPrice.priceHandleFunc up a t = a ∧
      (refreshSpotPrice.priceHandleFunc up a t).stored? t.region t.instanceType
        = some record) ∧
    (getSpotPrice up t.client t.region t.instanceType = .ok [] →
      ∃ record', (refreshSpotPrice.priceHandleFunc up a t).stored? t.region t.instanceType
          = some record' ∧
        record'.SpotPricePerHour = []) := by
  refine ⟨fun e he => ?_, fun hnone => ?_⟩
  · rw [refreshSpotPrice.priceHandleFunc_error up a t he]
    exact ⟨rfl, hstored⟩
  · exact ⟨_, refreshSpotPrice.priceHandleFunc_stored up a t hnone, rfl⟩

/-- C9 amended, at the scenario: with a failing spot fetch `T1` stays
{onDemand 0.096, spot {zoneA: 0.03}}; with no spot price reported the stored
record has an empty spot mapping. -/
theorem C9_spot_fetch_without_price_witness :
    scenarioClient.stored? "R1" "T1" = some scenarioRecord ∧
    (refreshSpotPrice.priceHandleFunc
        { scenarioUpstream with DescribeSpotPriceHistory := fun _ _ => .error "Throttling" }
        scenarioClient taskT1).stored? "R1" "T1" = some scenarioRecord ∧
    ∃ record', (refreshSpotPrice.priceHandleFunc scenarioUpstream scenarioClient taskT1).stored?
          "R1" "T1" = some record' ∧
      record'.SpotPricePerHour = [] :=
  ⟨rfl,
    ((C9_spot_fetch_without_price
        { scenarioUpstream with DescribeSpotPriceHistory := fun _ _ => .error "Throttling" }
        scenarioClient taskT1 scenarioRecord rfl).1 "Throttling" rfl).2,
    (C9_spot_fetch_without_price scenarioUpstream scenarioClient taskT1 scenarioRecord rfl).2
      rfl⟩

/-! ## Read accessors and the pricing document -/

/-- C5, at a failing input. `GetInstancePrice("R1", "T1")` hands out the pointer
that the store holds, not a copy: once the caller has set the on-demand rate of
the record it was handed to 999, the same call returns the record with the rate
999 and the store itself holds 999, where the first call returned 0.096. -/
theorem C5_GetInstancePrice_returns_stored_record :
    GetInstancePrice scenarioClient "R1" "T1" = some (.stored "R1" "T1") ∧
    (InstanceRef.stored "R1" "T1").load scenarioClient = some scenarioRecord ∧
    scenarioRecord.OnDemandPricePerHour = 96 / 1000 ∧
    GetInstancePrice overwrittenClient "R1" "T1" = some (.stored "R1" "T1") ∧
    (InstanceRef.stored "R1" "T1").load overwrittenClient =
      some { scenarioRecord with OnDemandPricePerHour := 999 } ∧
    overwrittenClient.stored? "R1" "T1" =
      some { scenarioRecord with OnDemandPricePerHour := 999 } ∧
    (999 : Rate) ≠ 96 / 1000 :=
  ⟨rfl, rfl, rfl, rfl, rfl, rfl, by norm_num⟩

/-- C10, at failing inputs. A document whose key has two "::"-parts makes the
table-building loop index `parts[3]` out of range, and a Linux entry with an
empty hours list makes it index `Hours[0]` out of range: the loop panics, it
returns neither a table nor an error, and so does the on-demand pass. A price
that is not a number is returned as an error. -/
theorem C10_getECSPrice_indexes_out_of_range :
    splitDoubleColon "cn-hangzhou::ecs.g6.large".data [] = ["cn-hangzhou", "ecs.g6.large"] ∧
    getECSPrice.build scenarioUpstream.ParseFloat malformedDocument.PricingInfo []
      = .panic "index out of range [3]" ∧
    getECSPrice.build scenarioUpstream.ParseFloat
      [("R1::T1::vpc::linux", { Hours := [] })] []
      = .panic "index out of range [0]" ∧
    getECSPrice.build scenarioUpstream.ParseFloat
      [("R1::T1::vpc::linux", { Hours := [{ Price := "n/a" }] })] []
      = .error "invalid syntax" ∧
    RefreshOnDemandPrice
      { scenarioUpstream with fetchPricingDocument := .ok malformedDocument }
      scenarioClient = .panic "index out of range [3]" :=
  ⟨rfl, rfl, rfl, rfl, rfl⟩

/-! ## Lookups -/

/-- C11. Lookup results: `ListInstancesPrice(region)` returns nil exactly when
the region is not stored, and otherwise the one-entry mapping from the region to
the stored regional record; `GetInstancePrice(region, instanceType)` returns nil
exactly when the region is not stored or the instance type is not stored in the
region, and otherwise a pointer to a record equal to the stored one. -/
theorem C11_lookup_results (a : AlibabaCloudPriceClient) (region instanceType : String) :
    (ListInstancesPrice a region = none ↔ a.priceData.get? region = none) ∧
    (∀ d, a.priceData.get? region = some d →
      ListInstancesPrice a region = some [(region, d)]) ∧
    (GetInstancePrice a region instanceType = none ↔
      (a.priceData.get? region = none ∨
        ∃ d, a.priceData.get? region = some d ∧
          d.InstanceTypePrices.get? instanceType = none)) ∧
    (∀ d record, a.priceData.get? region = some d →
      d.InstanceTypePrices.get? instanceType = some record →
      ∃ p, GetInstancePrice a region instanceType = some p ∧ p.load a = some record) := by
  refine ⟨?_, ?_, ?_, ?_⟩
  · cases h : a.priceData.get? region <;> simp [ListInstancesPrice, h]
  · intro d h
    simp [ListInstancesPrice, h, RegionalInstancePrice.DeepCopy]
  · cases h : a.priceData.get? region with
    | none => simp [GetInstancePrice, h]
    | some d =>
      cases h' : d.InstanceTypePrices.get? instanceType <;> simp [GetInstancePrice, h, h']
  · intro d record h h'
    refine ⟨.stored region instanceType, ?_, ?_⟩
    · simp [GetInstancePrice, h, h']
    · simp [InstanceRef.load, AlibabaCloudPriceClient.stored?, h, h']

/-- C11 at the scenario: `R1` and `R1`/`T1` are found with the stored records,
the region `R9` and the instance type `T9` are not found. -/
theorem C11_lookup_results_witness :
    ListInstancesPrice scenarioClient "R1"
      = some [("R1", { InstanceTypePrices := [("T1", scenarioRecord)] })] ∧
    ListInstancesPrice scenarioClient "R9" = none ∧
    GetInstancePrice scenarioClient "R9" "T1" = none ∧
    GetInstancePrice scenarioClient "R1" "T9" = none ∧
    ∃ p, GetInstancePrice scenarioClient "R1" "T1" = some p ∧
      p.load scenarioClient = some scenarioRecord :=
  ⟨(C11_lookup_results scenarioClient "R1" "T1").2.1 _ rfl,
    (C11_lookup_results scenarioClient "R9" "T1").1.2 rfl,
    (C11_lookup_results scenarioClient "R9" "T1").2.2.1.2 (Or.inl rfl),
    (C11_lookup_results scenarioClient "R1" "T9").2.2.1.2 (Or.inr ⟨_, rfl, rfl⟩),
    (C11_lookup_results scenarioClient "R1" "T1").2.2.2 _ _ rfl rfl⟩

/-! ## Region discovery -/

theorem ignoreRegions_has (region : String) :
    ignoreRegions.has region = true ↔ region = "ap-southeast-2" := by
  by_cases h : "ap-southeast-2" = region
  · simp [ignoreRegions, GoMap.has, GoMap.get?, h.symm]
  · simp [ignoreRegions, GoMap.has, GoMap.get?, h, Ne.symm h]

theorem initialRegions.fill_eq (regions regionList : List String) :
    initialRegions.fill regions regionList =
      regionList ++ regions.filter fun r => !ignoreRegions.has r := by
  induction regions generalizing regionList with
  | nil => simp [initialRegions.fill]
  | cons r rest ih =>
    by_cases h : ignoreRegions.has r = true
    · simp [initialRegions.fill, h, ih]
    · simp [initialRegions.fill, h, ih]

/-- C13. Region discovery excludes the suppressed regions: when the client for
`cn-hangzhou` is made and the provider answers a list of regions, `initialRegions`
on a client with an empty region list returns a client whose region list is the
provider's list without the members of `ignoreRegions`, in the provider's order;
a region is in it exactly when the provider lists it and it is not
`ap-southeast-2`. -/
theorem C13_initialRegions_excludes_ignored (up : Upstream) (a : AlibabaCloudPriceClient)
    (client : ECSClient) (regions : List String)
    (hclient : createECSClient up a "cn-hangzhou" = .ok client)
    (hregions : up.DescribeRegions = .ok regions)
    (hempty : a.regionList = []) :
    ∃ a', initialRegions up a = .ok a' ∧
      a'.regionList = regions.filter (fun r => !ignoreRegions.has r) ∧
      (∀ r, r ∈ a'.regionList ↔ r ∈ regions ∧ r ≠ "ap-southeast-2") ∧
      a'.priceData = a.priceData := by
  refine ⟨{ a with regionList := initialRegions.fill regions a.regionList }, ?_, ?_, ?_, rfl⟩
  · simp only [initialRegions, hclient, hregions]
  · simp [initialRegions.fill_eq, hempty]
  · intro r
    have h := ignoreRegions_has r
    simp only [initialRegions.fill_eq, hempty, List.nil_append, List.mem_filter,
      Bool.not_eq_true', ne_eq]
    constructor
    · rintro ⟨hr, hn⟩
      refine ⟨hr, fun heq => ?_⟩
      rw [h.2 heq] at hn
      cases hn
    · rintro ⟨hr, hn⟩
      refine ⟨hr, ?_⟩
      cases hhas : ignoreRegions.has r with
      | false => rfl
      | true => exact absurd (h.1 hhas) hn

/-- C13 at the scenario: the provider answers `R1`, `ap-southeast-2`, `R2` and the
region list becomes `R1`, `R2`. -/
theorem C13_initialRegions_excludes_ignored_witness :
    initialRegions scenarioUpstream { scenarioClient with regionList := [] }
      = .ok scenarioClient ∧
    ∃ a', initialRegions scenarioUpstream { scenarioClient with regionList := [] } = .ok a' ∧
      a'.regionList = ["R1", "ap-southeast-2", "R2"].filter (fun r => !ignoreRegions.has r) ∧
      (∀ r, r ∈ a'.regionList ↔ r ∈ ["R1", "ap-southeast-2", "R2"] ∧ r ≠ "ap-southeast-2") ∧
      a'.priceData = scenarioClient.priceData :=
  ⟨rfl, C13_initialRegions_excludes_ignored scenarioUpstream
    { scenarioClient with regionList := [] }
    { AccessKeyId := "ak", AccessKeySecret := "sk", RegionId := "cn-hangzhou" }
    ["R1", "ap-southeast-2", "R2"] rfl rfl rfl⟩

/-! ## The table-building loop and the order of the document -/

theorem getECSPrice.build_cons (parseFloat : String → Except String Rate)
    (e : String × ECSPriceDetail) (rest : List (String × ECSPriceDetail)) (ret : PriceTable) :
    build parseFloat (e :: rest) ret =
      match entry parseFloat e with
      | .panic msg => .panic msg
      | .error err => .error err
      | .ok none => build parseFloat rest ret
      | .ok (some w) => build parseFloat rest (put ret w.1 w.2.1 w.2.2) := by
  obtain ⟨k, v⟩ := e
  simp only [build, entry]
  split
  · rfl
  · split
    · rfl
    · split
      · rfl
      · split
        · split
          · rfl
          · split <;> rfl
        · rfl

theorem getECSPrice.find?_put (ret : PriceTable) (regions instanceType : String) (price : Rate)
    (region it : String) :
    (put ret regions instanceType price).find? region it =
      if region = regions ∧ it = instanceType then some price else ret.find? region it := by
  unfold put PriceTable.find?
  cases h : ret.get? regions with
  | none =>
    by_cases hr : region = regions
    · subst hr
      by_cases hi : it = instanceType
      · subst hi
        simp [GoMap.get?_set_self, GoMap.set, GoMap.get?, h]
      · simp [GoMap.get?_set_self, GoMap.set, GoMap.get?, h, hi, Ne.symm hi]
    · simp [GoMap.get?_set_ne _ _ hr, hr]
  | some m =>
    by_cases hr : region = regions
    · subst hr
      by_cases hi : it = instanceType
      · subst hi
        simp [GoMap.get?_set_self, h]
      · simp [GoMap.get?_set_self, GoMap.get?_set_ne _ _ hi, h, hi]
    · simp [GoMap.get?_set_ne _ _ hr, hr]

theorem PriceTable.rate_eq_find? (t : PriceTable) (region instanceType : String) :
    t.rate region instanceType = (t.find? region instanceType).getD 0 := by
  unfold PriceTable.rate PriceTable.find?
  cases t.get? region <;> simp [GoMap.get?]

/-- Tables with the same reads give, after the same entries, tables with the
same reads. -/
theorem getECSPrice.build_congr (parseFloat : String → Except String Rate)
    (entries : List (String × ECSPriceDetail)) (ret₁ ret₂ table₁ : PriceTable)
    (hret : ∀ region it, ret₁.find? region it = ret₂.find? region it)
    (hbuild : build parseFloat entries ret₁ = .ok table₁) :
    ∃ table₂, build parseFloat entries ret₂ = .ok table₂ ∧
      ∀ region it, table₁.find? region it = table₂.find? region it := by
  induction entries generalizing ret₁ ret₂ with
  | nil =>
    simp only [build, Outcome.ok.injEq] at hbuild
    subst hbuild
    exact ⟨ret₂, rfl, hret⟩
  | cons e rest ih =>
    rw [build_cons] at hbuild ⊢
    cases he : entry parseFloat e with
    | panic msg => simp [he] at hbuild
    | error err => simp [he] at hbuild
    | ok w =>
      cases w with
      | none =>
        simp only [he] at hbuild ⊢
        exact ih ret₁ ret₂ hret hbuild
      | some w =>
        simp only [he] at hbuild ⊢
        refine ih _ _ (fun region it => ?_) hbuild
        simp only [find?_put, hret]

/-- Visiting the same entries in another order gives a table with the same
reads, when the entries that write the same region and instance type write the
same rate. -/
theorem getECSPrice.build_perm (parseFloat : String → Except String Rate)
    {entries visited : List (String × ECSPriceDetail)} (hperm : entries.Perm visited)
    (hsame : ∀ e₁ ∈ entries, ∀ e₂ ∈ entries, ∀ region it p₁ p₂,
      entry parseFloat e₁ = .ok (some (region, it, p₁)) →
      entry parseFloat e₂ = .ok (some (region, it, p₂)) → p₁ = p₂)
    (ret₁ ret₂ table₁ : PriceTable)
    (hret : ∀ region it, ret₁.find? region it = ret₂.find? region it)
    (hbuild : build parseFloat entries ret₁ = .ok table₁) :
    ∃ table₂, build parseFloat visited ret₂ = .ok table₂ ∧
      ∀ region it, table₁.find? region it = table₂.find? region it := by
  induction hperm generalizing ret₁ ret₂ table₁ with
  | nil => exact build_congr parseFloat [] ret₁ ret₂ table₁ hret hbuild
  | cons x _ ih =>
    have hsame' := fun e₁ h₁ e₂ h₂ =>
      hsame e₁ (List.mem_cons_of_mem _ h₁) e₂ (List.mem_cons_of_mem _ h₂)
    rw [build_cons] at hbuild ⊢
    cases hx : entry parseFloat x with
    | panic msg => simp [hx] at hbuild
    | error err => simp [hx] at hbuild
    | ok w =>
      cases w with
      | none =>
        simp only [hx] at hbuild ⊢
        exact ih hsame' ret₁ ret₂ table₁ hret hbuild
      | some w =>
        simp only [hx] at hbuild ⊢
        refine ih hsame' _ _ table₁ (fun region it => ?_) hbuild
        simp only [find?_put, hret]
  | swap x y l =>
    simp only [build_cons] at hbuild ⊢
    cases hy : entry parseFloat y with
    | panic msg => simp [hy] at hbuild
    | error err => simp [hy] at hbuild
    | ok wy =>
      cases hx : entry parseFloat x with
      | panic msg => cases wy <;> simp [hy, hx] at hbuild
      | error err => cases wy <;> simp [hy, hx] at hbuild
      | ok wx =>
        cases wy with
        | none =>
          cases wx with
          | none =>
            simp only [hy, hx] at hbuild ⊢
            exact build_congr parseFloat l ret₁ ret₂ table₁ hret hbuild
          | some wx =>
            simp only [hy, hx] at hbuild ⊢
            refine build_congr parseFloat l _ _ table₁ (fun region it => ?_) hbuild
            simp only [find?_put, hret]
        | some wy =>
          cases wx with
          | none =>
            simp only [hy, hx] at hbuild ⊢
            refine build_congr parseFloat l _ _ table₁ (fun region it => ?_) hbuild
            simp only [find?_put, hret]
          | some wx =>
            simp only [hy, hx] at hbuild ⊢
            refine build_congr parseFloat l _ _ table₁ (fun region it => ?_) hbuild
            obtain ⟨rx, ix, px⟩ := wx
            obtain ⟨ry, iy, py⟩ := wy
            simp only [find?_put, hret]
            by_cases hkx : region = rx ∧ it = ix
            · obtain ⟨h1, h2⟩ := hkx
              subst h1 h2
              by_cases hky : region = ry ∧ it = iy
              · obtain ⟨h3, h4⟩ := hky
                subst h3 h4
                have hp : px = py :=
                  hsame x (by simp) y (by simp) region it px py hx hy
                simp [hp]
              · simp [hky]
            · simp [hkx]
  | trans h₁ h₂ ih₁ ih₂ =>
    obtain ⟨mid, hmid, hsameMid⟩ := ih₁ hsame ret₁ ret₁ table₁ (fun _ _ => rfl) hbuild
    have hsame' := fun e₁ m₁ e₂ m₂ =>
      hsame e₁ (h₁.mem_iff.2 m₁) e₂ (h₁.mem_iff.2 m₂)
    obtain ⟨table₂, h₂', hsame₂⟩ := ih₂ hsame' ret₁ ret₂ mid hret hmid
    exact ⟨table₂, h₂', fun region it => (hsameMid region it).trans (hsame₂ region it)⟩

/-- C14, counterexample. The entries for `T1` in `R1` on the `vpc` network (0.10)
and on the `classic` network (0.20) are two Linux entries of one document with
the same region and instance type. Visited in this order the table has the rate
0.20 for `R1`/`T1`, visited in the other order it has 0.10. -/
theorem C14_order_changes_table_counterexample :
    ambiguousEntries.Perm ambiguousEntries.reverse ∧
    getECSPrice.build exampleParseFloat ambiguousEntries []
      = .ok [("R1", [("T1", 2 / 10)])] ∧
    getECSPrice.build exampleParseFloat ambiguousEntries.reverse []
      = .ok [("R1", [("T1", 1 / 10)])] ∧
    PriceTable.rate [("R1", [("T1", 2 / 10)])] "R1" "T1"
      ≠ PriceTable.rate [("R1", [("T1", 1 / 10)])] "R1" "T1" := by
  refine ⟨(List.reverse_perm _).symm, rfl, rfl, ?_⟩
  rw [show PriceTable.rate [("R1", [("T1", 2 / 10)])] "R1" "T1" = 2 / 10 from rfl,
    show PriceTable.rate [("R1", [("T1", 1 / 10)])] "R1" "T1" = 1 / 10 from rfl]
  norm_num

/-- C14, amended. For a document in which any two entries that write the same
region and instance type write the same rate: if the table-building loop
returns a table for one order of the entries, it returns a table for every
other order of the same entries, and the two tables have the same rate, or no
rate, for every region and instance type. -/
theorem C14_table_independent_of_order (parseFloat : String → Except String Rate)
    (entries visited : List (String × ECSPriceDetail)) (table : PriceTable)
    (hperm : entries.Perm visited)
    (hsame : ∀ e₁ ∈ entries, ∀ e₂ ∈ entries, ∀ region it p₁ p₂,
      getECSPrice.entry parseFloat e₁ = .ok (some (region, it, p₁)) →
      getECSPrice.entry parseFloat e₂ = .ok (some (region, it, p₂)) → p₁ = p₂)
    (hbuild : getECSPrice.build parseFloat entries [] = .ok table) :
    ∃ table', getECSPrice.build parseFloat visited [] = .ok table' ∧
      ∀ region it, table'.find? region it = table.find? region it ∧
        table'.rate region it = table.rate region it := by
  obtain ⟨table', hbuild', hreads⟩ :=
    getECSPrice.build_perm parseFloat hperm hsame [] [] table (fun _ _ => rfl) hbuild
  refine ⟨table', hbuild', fun region it => ⟨(hreads region it).symm, ?_⟩⟩
  rw [PriceTable.rate_eq_find?, PriceTable.rate_eq_find?, hreads]

/-- C14 amended, at a document with two entries for `R1`/`T1` (the `vpc` and the
`classic` network, both at 0.10) and one for `R2`/`T1`: the table of the
reversed order has the same reads as the table of the given order. -/
theorem C14_table_independent_of_order_witness :
    agreeingEntries.Perm agreeingEntries.reverse ∧
    getECSPrice.build exampleParseFloat agreeingEntries []
      = .ok [("R1", [("T1", 1 / 10)]), ("R2", [("T1", 2 / 10)])] ∧
    getECSPrice.build exampleParseFloat agreeingEntries.reverse []
      = .ok [("R2", [("T1", 2 / 10)]), ("R1", [("T1", 1 / 10)])] ∧
    ∃ table', getECSPrice.build exampleParseFloat agreeingEntries.reverse [] = .ok table' ∧
      ∀ region it,
        table'.find? region it
            = PriceTable.find? [("R1", [("T1", 1 / 10)]), ("R2", [("T1", 2 / 10)])] region it ∧
          table'.rate region it
            = PriceTable.rate [("R1", [("T1", 1 / 10)]), ("R2", [("T1", 2 / 10)])] region it :=
  ⟨(List.reverse_perm _).symm, rfl, rfl,
    C14_table_independent_of_order exampleParseFloat agreeingEntries agreeingEntries.reverse
      [("R1", [("T1", 1 / 10)]), ("R2", [("T1", 2 / 10)])]
      (List.reverse_perm _).symm
      (by
        have h1 : getECSPrice.entry exampleParseFloat
            ("R1::T1::vpc::linux", { Hours := [{ Price := "0.10" }] })
            = .ok (some ("R1", "T1", 1 / 10)) := rfl
        have h2 : getECSPrice.entry exampleParseFloat
            ("R1::T1::classic::linux", { Hours := [{ Price := "0.10" }] })
            = .ok (some ("R1", "T1", 1 / 10)) := rfl
        have h3 : getECSPrice.entry exampleParseFloat
            ("R2::T1::vpc::linux", { Hours := [{ Price := "0.20" }] })
            = .ok (some ("R2", "T1", 2 / 10)) := rfl
        intro e₁ m₁ e₂ m₂ region it p₁ p₂ w₁ w₂
        simp only [agreeingEntries, List.mem_cons, List.mem_singleton, List.not_mem_nil,
          or_false] at m₁ m₂
        rcases m₁ with rfl | rfl | rfl <;> rcases m₂ with rfl | rfl | rfl <;>
          simp only [h1, h2, h3, Outcome.ok.injEq, Option.some.injEq, Prod.mk.injEq] at w₁ w₂ <;>
          obtain ⟨hr₁, _, hp₁⟩ := w₁ <;>
          obtain ⟨hr₂, _, hp₂⟩ := w₂ <;>
          first
          | exact hp₁.symm.trans hp₂
          | exact absurd (hr₁.trans hr₂.symm) (by decide))
      rfl⟩

/-! ## Non-negative rates -/

theorem GoMap.mem_set {V : Type} (m : GoMap V) (k : String) (v : V) {e : String × V}
    (h : e ∈ m.set k v) : e ∈ m ∨ e = (k, v) := by
  induction m with
  | nil => simpa [GoMap.set] using h
  | cons e₀ m ih =>
    obtain ⟨k₀, v₀⟩ := e₀
    by_cases h₀ : k₀ = k
    · simp only [GoMap.set, h₀, if_true, List.mem_cons] at h
      rcases h with h | h
      · exact Or.inr h
      · exact Or.inl (List.mem_cons_of_mem _ h)
    · simp only [GoMap.set, h₀, if_false, List.mem_cons] at h
      rcases h with h | h
      · exact Or.inl (h ▸ List.mem_cons_self _ _)
      · rcases ih h with h | h
        · exact Or.inl (List.mem_cons_of_mem _ h)
        · exact Or.inr h

theorem GoMap.mem_of_get? {V : Type} (m : GoMap V) {k : String} {v : V}
    (h : m.get? k = some v) : (k, v) ∈ m := by
  induction m with
  | nil => simp [GoMap.get?] at h
  | cons e m ih =>
    obtain ⟨k₀, v₀⟩ := e
    by_cases h₀ : k₀ = k
    · simp [GoMap.get?, h₀] at h
      simp [h₀, h]
    · simp [GoMap.get?, h₀] at h
      exact List.mem_cons_of_mem _ (ih h)

theorem getECSPrice.put_nonneg (ret : PriceTable) (regions instanceType : String)
    (price : Rate) (hret : ret.Nonneg) (hprice : 0 ≤ price) :
    (put ret regions instanceType price).Nonneg := by
  have hmade : PriceTable.Nonneg
      (if (ret.get? regions).isNone then ret.set regions [] else ret) := by
    split
    · intro e he
      rcases GoMap.mem_set _ _ _ he with he | he
      · exact hret e he
      · subst he
        simp
    · exact hret
  intro e he
  rcases GoMap.mem_set _ _ _ he with he | he
  · exact hmade e he
  · subst he
    intro x hx
    rcases GoMap.mem_set _ _ _ hx with hx | hx
    · cases hget : GoMap.get?
          (if (ret.get? regions).isNone then ret.set regions [] else ret) regions with
      | none =>
        rw [hget] at hx
        simp at hx
      | some m =>
        rw [hget] at hx
        exact hmade _ (GoMap.mem_of_get? _ hget) x hx
    · subst hx
      exact hprice

theorem getECSPrice.build_nonneg (parseFloat : String → Except String Rate)
    (entries : List (String × ECSPriceDetail)) (ret table : PriceTable) (hret : ret.Nonneg)
    (hentries : ∀ e ∈ entries, ∀ w, entry parseFloat e = .ok (some w) → 0 ≤ w.2.2)
    (hbuild : build parseFloat entries ret = .ok table) : table.Nonneg := by
  induction entries generalizing ret with
  | nil =>
    simp only [build, Outcome.ok.injEq] at hbuild
    exact hbuild ▸ hret
  | cons e rest ih =>
    have hrest := fun e' he' => hentries e' (List.mem_cons_of_mem _ he')
    rw [build_cons] at hbuild
    cases he : entry parseFloat e with
    | panic msg => simp [he] at hbuild
    | error err => simp [he] at hbuild
    | ok w =>
      cases w with
      | none =>
        simp only [he] at hbuild
        exact ih ret hret hrest hbuild
      | some w =>
        simp only [he] at hbuild
        exact ih _ (put_nonneg ret _ _ _ hret (hentries e (List.mem_cons_self _ _) w he))
          hrest hbuild

theorem PriceTable.rate_nonneg (t : PriceTable) (ht : t.Nonneg) (region instanceType : String) :
    0 ≤ t.rate region instanceType := by
  unfold PriceTable.rate
  cases hr : t.get? region with
  | none => simp [GoMap.get?]
  | some m =>
    cases hi : m.get? instanceType with
    | none => simp [hi]
    | some price =>
      simp only [Option.getD_some, hi]
      exact ht _ (GoMap.mem_of_get? _ hr) _ (GoMap.mem_of_get? _ hi)

theorem getECSPrice_nonneg (up : Upstream) (hup : up.NonnegPrices) (priceInfo : PriceTable)
    (h : getECSPrice up = .ok priceInfo) : priceInfo.Nonneg := by
  unfold getECSPrice at h
  cases hdoc : up.fetchPricingDocument with
  | error e => simp [hdoc] at h
  | ok doc =>
    simp only [hdoc] at h
    exact getECSPrice.build_nonneg up.ParseFloat doc.PricingInfo [] priceInfo
      (fun e he => by simp at he) (hup.1 doc hdoc) h

theorem listInstanceTypes.listing_fill_nonneg (zones supported : List String)
    (items : List InstanceTypeItem) (ret : GoMap InstanceTypePrice)
    (h : ∀ e ∈ ret, e.2.NonnegRates) :
    ∀ e ∈ listInstanceTypes.fill zones supported items ret, e.2.NonnegRates := by
  induction items generalizing ret with
  | nil => simpa [listInstanceTypes.fill] using h
  | cons item items ih =>
    unfold listInstanceTypes.fill
    split
    · exact ih ret h
    · refine ih _ fun e he => ?_
      rcases GoMap.mem_set _ _ _ he with he | he
      · exact h e he
      · subst he
        simp [InstanceTypePrice.NonnegRates]

theorem listInstanceTypes_nonneg (up : Upstream) (a : AlibabaCloudPriceClient) (region : String)
    {instanceTypes : GoMap InstanceTypePrice}
    (h : listInstanceTypes up a region = .ok instanceTypes) :
    ∀ e ∈ instanceTypes, e.2.NonnegRates := by
  unfold listInstanceTypes at h
  split at h
  · cases h
  · split at h
    · cases h
    · split at h
      · cases h
      · split at h
        · cases h
        · cases h
          exact listInstanceTypes.listing_fill_nonneg _ _ _ _ (fun e he => by simp at he)

theorem RefreshOnDemandPrice.attach_nonneg (priceInfo : PriceTable)
    (a : AlibabaCloudPriceClient) (region instanceType : String) (info : InstanceTypePrice)
    (hprice : priceInfo.Nonneg) (hstore : NonnegRates a.priceData) (hinfo : info.NonnegRates) :
    (attach priceInfo a region instanceType info).NonnegRates := by
  refine ⟨?_, fun e he => ?_⟩
  · rw [attach_onDemand]
    exact PriceTable.rate_nonneg priceInfo hprice region instanceType
  · cases hr : a.priceData.get? region with
    | none =>
      simp only [attach, hr] at he
      exact hinfo.2 e he
    | some regionData =>
      cases hi : regionData.InstanceTypePrices.get? instanceType with
      | none =>
        simp only [attach, hr, hi] at he
        exact hinfo.2 e he
      | some stored =>
        simp only [attach, hr, hi] at he
        exact (hstore _ (GoMap.mem_of_get? _ hr) _ (GoMap.mem_of_get? _ hi)).2 e he

theorem RefreshOnDemandPrice.handleFunc_nonneg (up : Upstream) (priceInfo : PriceTable)
    (a : AlibabaCloudPriceClient) (region : String)
    (hprice : priceInfo.Nonneg) (hstore : NonnegRates a.priceData) :
    NonnegRates (handleFunc up priceInfo a region).priceData := by
  unfold handleFunc
  cases hl : listInstanceTypes up a region with
  | error e => exact hstore
  | ok instanceTypes =>
    intro e he
    rcases GoMap.mem_set _ _ _ he with he | he
    · exact hstore e he
    · subst he
      intro t ht
      simp only [rebuild, List.mem_map] at ht
      obtain ⟨x, hx, rfl⟩ := ht
      exact attach_nonneg priceInfo a region x.1 x.2 hprice hstore
        (listInstanceTypes_nonneg up a region hl x hx)

theorem RefreshOnDemandPrice.onDemand_process_nonneg (up : Upstream) (priceInfo : PriceTable)
    (regions : List String) (a : AlibabaCloudPriceClient)
    (hprice : priceInfo.Nonneg) (hstore : NonnegRates a.priceData) :
    NonnegRates (ParallelTask.Process (handleFunc up priceInfo) regions a).priceData := by
  induction regions generalizing a with
  | nil => exact hstore
  | cons r rest ih =>
    simp only [ParallelTask.Process, List.foldl_cons] at ih ⊢
    exact ih _ (handleFunc_nonneg up priceInfo a r hprice hstore)

theorem getSpotPrice.spot_fill_nonneg (prices : List (String × Rate)) (ret : GoMap Rate)
    (hprices : ∀ e ∈ prices, 0 ≤ e.2) (hret : ∀ e ∈ ret, 0 ≤ e.2) :
    ∀ e ∈ getSpotPrice.fill prices ret, 0 ≤ e.2 := by
  induction prices generalizing ret with
  | nil => simpa [getSpotPrice.fill] using hret
  | cons x rest ih =>
    obtain ⟨zoneId, spotPrice⟩ := x
    unfold getSpotPrice.fill
    refine ih _ (fun e he => hprices e (List.mem_cons_of_mem _ he)) fun e he => ?_
    rcases GoMap.mem_set _ _ _ he with he | he
    · exact hret e he
    · subst he
      exact hprices _ (List.mem_cons_self _ _)

theorem getSpotPrice_nonneg (up : Upstream) (hup : up.NonnegPrices) (client : ECSClient)
    (region instanceType : String) (spotPrice : GoMap Rate)
    (h : getSpotPrice up client region instanceType = .ok spotPrice) :
    ∀ e ∈ spotPrice, 0 ≤ e.2 := by
  unfold getSpotPrice at h
  cases hresp : up.DescribeSpotPriceHistory region instanceType with
  | error e => simp [hresp] at h
  | ok prices =>
    simp only [hresp] at h
    have hprices := hup.2 region instanceType prices hresp
    split at h
    · cases h
      intro e he
      simp at he
    · cases h
      exact getSpotPrice.spot_fill_nonneg prices _ hprices
        (getSpotPrice.spot_fill_nonneg prices [] hprices (fun e he => by simp at he))

theorem refreshSpotPrice.priceHandleFunc_nonneg (up : Upstream) (hup : up.NonnegPrices)
    (a : AlibabaCloudPriceClient) (t : SpotTask)
    (hstore : NonnegRates a.priceData) (hinfo : t.info.NonnegRates) :
    NonnegRates (priceHandleFunc up a t).priceData := by
  unfold priceHandleFunc
  cases hs : getSpotPrice up t.client t.region t.instanceType with
  | error e => exact hstore
  | ok spotPrice =>
    have hspot := getSpotPrice_nonneg up hup t.client t.region t.instanceType spotPrice hs
    have hmade : NonnegRates
        (if a.priceData.has t.region then a.priceData
          else a.priceData.set t.region { InstanceTypePrices := [] }) := by
      split
      · exact hstore
      · intro e he
        rcases GoMap.mem_set _ _ _ he with he | he
        · exact hstore e he
        · subst he
          intro x hx
          simp at hx
    simp only
    generalize (if a.priceData.has t.region then a.priceData
      else a.priceData.set t.region { InstanceTypePrices := [] }) = priceData at hmade ⊢
    intro e he
    rcases GoMap.mem_set _ _ _ he with he | he
    · exact hmade e he
    · subst he
      intro x hx
      rcases GoMap.mem_set _ _ _ hx with hx | hx
      · split at hx
        · cases hget : priceData.get? t.region with
          | none =>
            rw [hget] at hx
            simp at hx
          | some regionData =>
            rw [hget] at hx
            exact hmade _ (GoMap.mem_of_get? _ hget) x hx
        · simp at hx
      · subst hx
        exact ⟨hinfo.1, hspot⟩

theorem refreshSpotPrice.tasks_nonneg (up : Upstream) (a : AlibabaCloudPriceClient)
    (instanceTypesMap : GoMap (GoMap InstanceTypePrice))
    (h : ∀ e ∈ instanceTypesMap, ∀ x ∈ e.2, x.2.NonnegRates) :
    ∀ t ∈ tasks up a instanceTypesMap, t.info.NonnegRates := by
  induction instanceTypesMap with
  | nil => simp [tasks]
  | cons e rest ih =>
    obtain ⟨region, instanceTypes⟩ := e
    have hrest := ih fun e' he' => h e' (List.mem_cons_of_mem _ he')
    unfold tasks
    split
    · exact hrest
    · intro t ht
      rcases List.mem_append.1 ht with ht | ht <;>
        first
        | exact hrest t ht
        | (simp only [List.mem_map, List.mem_reverse] at ht
           obtain ⟨x, hx, rfl⟩ := ht
           exact h _ (List.mem_cons_self _ _) x hx)

theorem refreshSpotPrice.instanceTypesMap_nonneg (up : Upstream) (a : AlibabaCloudPriceClient)
    (regions : List String) (instanceTypesMap : GoMap (GoMap InstanceTypePrice))
    (h : ∀ e ∈ instanceTypesMap, ∀ x ∈ e.2, x.2.NonnegRates) :
    ∀ e ∈ ParallelTask.Process (instanceTypesMapHandleFunc up a) regions instanceTypesMap,
      ∀ x ∈ e.2, x.2.NonnegRates := by
  induction regions generalizing instanceTypesMap with
  | nil => exact h
  | cons r rest ih =>
    simp only [ParallelTask.Process, List.foldl_cons] at ih ⊢
    refine ih _ ?_
    unfold instanceTypesMapHandleFunc
    cases hl : listInstanceTypes up a r with
    | error e => exact h
    | ok instanceTypes =>
      intro e he
      rcases GoMap.mem_set _ _ _ he with he | he
      · exact h e he
      · subst he
        exact listInstanceTypes_nonneg up a r hl

theorem refreshSpotPrice.spot_process_nonneg (up : Upstream) (hup : up.NonnegPrices)
    (spotTasks : List SpotTask) (a : AlibabaCloudPriceClient)
    (htasks : ∀ t ∈ spotTasks, t.info.NonnegRates) (hstore : NonnegRates a.priceData) :
    NonnegRates (ParallelTask.Process (priceHandleFunc up) spotTasks a).priceData := by
  induction spotTasks generalizing a with
  | nil => exact hstore
  | cons t rest ih =>
    simp only [ParallelTask.Process, List.foldl_cons] at ih ⊢
    exact ih _ (fun t' ht' => htasks t' (List.mem_cons_of_mem _ ht'))
      (priceHandleFunc_nonneg up hup a t hstore (htasks t (List.mem_cons_self _ _)))

theorem refreshSpotPrice_nonneg (up : Upstream) (hup : up.NonnegPrices)
    (a : AlibabaCloudPriceClient) (hstore : NonnegRates a.priceData) :
    NonnegRates (refreshSpotPrice up a).priceData := by
  unfold refreshSpotPrice
  exact refreshSpotPrice.spot_process_nonneg up hup _ a
    (refreshSpotPrice.tasks_nonneg up a _
      (refreshSpotPrice.instanceTypesMap_nonneg up a a.regionList []
        (fun e he => by simp at he)))
    hstore

theorem ListRegionsInstancesPrice.copy_fill_nonneg (store ret : GoMap RegionalInstancePrice)
    (hstore : NonnegRates store) (hret : NonnegRates ret) :
    NonnegRates (ListRegionsInstancesPrice.fill store ret) := by
  induction store generalizing ret with
  | nil => exact hret
  | cons e rest ih =>
    obtain ⟨k, v⟩ := e
    unfold ListRegionsInstancesPrice.fill
    refine ih _ (fun e' he' => hstore e' (List.mem_cons_of_mem _ he')) fun e' he' => ?_
    rcases GoMap.mem_set _ _ _ he' with he' | he'
    · exact hret e' he'
    · subst he'
      exact hstore (k, v) (List.mem_cons_self _ _)

/-- The accessors return the rates of the store. -/
theorem returnsNonnegRates_of_store (a : AlibabaCloudPriceClient)
    (hstore : NonnegRates a.priceData) : ReturnsNonnegRates a := by
  refine ⟨ListRegionsInstancesPrice.copy_fill_nonneg a.priceData [] hstore
    (fun e he => by simp at he), fun region m hm => ?_, fun region instanceType p hp => ?_⟩
  · unfold ListInstancesPrice at hm
    cases hr : a.priceData.get? region with
    | none => simp [hr] at hm
    | some d =>
      simp only [hr, Option.some.injEq] at hm
      subst hm
      intro e he
      simp only [List.mem_singleton] at he
      subst he
      exact hstore _ (GoMap.mem_of_get? _ hr)
  · unfold GetInstancePrice at hp
    cases hr : a.priceData.get? region with
    | none => simp [hr] at hp
    | some d =>
      cases hi : d.InstanceTypePrices.get? instanceType with
      | none => simp [hr, hi] at hp
      | some r =>
        simp only [hr, hi, Option.some.injEq] at hp
        subst hp
        refine ⟨r, ?_, hstore _ (GoMap.mem_of_get? _ hr) _ (GoMap.mem_of_get? _ hi)⟩
        simp [InstanceRef.load, AlibabaCloudPriceClient.stored?, hr, hi]

theorem nonnegRates_scenarioClient : NonnegRates scenarioClient.priceData := by
  intro e he t ht
  simp only [scenarioClient, List.mem_cons, List.mem_singleton, List.not_mem_nil,
    or_false] at he
  rcases he with rfl | rfl <;>
  · simp only [List.mem_singleton] at ht
    subst ht
    refine ⟨by norm_num [scenarioRecord], fun z hz => ?_⟩
    simp only [scenarioRecord, List.mem_singleton] at hz
    subst hz
    norm_num

/-- C12, counterexample. The rates of the scenario store are non-negative. With
the price "-0.10" for `R1`/`T1` in the pricing document, the on-demand pass
stores the rate -0.10 and `GetInstancePrice` returns it; with the spot price
-0.05 in the provider's response, the spot pass stores it in the spot mapping
of `R1`/`T1`. -/
theorem C12_negative_rates_counterexample :
    NonnegRates scenarioClient.priceData ∧
    (∃ a' p, RefreshOnDemandPrice negativeUpstream scenarioClient = .ok a' ∧
      GetInstancePrice a' "R1" "T1" = some p ∧
      p.load a' = some { scenarioRecord with OnDemandPricePerHour := -1 / 10 }) ∧
    (-1 / 10 : Rate) < 0 ∧
    (∃ p, GetInstancePrice (refreshSpotPrice negativeSpotUpstream scenarioClient) "R1" "T1"
        = some p ∧
      p.load (refreshSpotPrice negativeSpotUpstream scenarioClient)
        = some { listedT1 with SpotPricePerHour := [("zoneA", -5 / 100)] }) ∧
    (-5 / 100 : Rate) < 0 :=
  ⟨nonnegRates_scenarioClient, ⟨_, _, rfl, rfl, rfl⟩, by norm_num, ⟨_, rfl, rfl⟩, by norm_num⟩

/-- C12, amended. For a store whose rates are all non-negative and an upstream
whose prices are all non-negative (every rate the table-building loop reads
from the pricing document and every spot price of the provider's responses):
after the spot pass, and after the on-demand pass when `getECSPrice` returns,
every on-demand rate and every spot rate that the read accessors return is
greater than or equal to zero. -/
theorem C12_nonneg_rates (up : Upstream) (a : AlibabaCloudPriceClient)
    (hstore : NonnegRates a.priceData) (hup : up.NonnegPrices) :
    ((∀ msg, getECSPrice up ≠ .panic msg) →
      ∃ a', RefreshOnDemandPrice up a = .ok a' ∧ ReturnsNonnegRates a') ∧
    ReturnsNonnegRates (refreshSpotPrice up a) := by
  refine ⟨fun hret => ?_, returnsNonnegRates_of_store _ (refreshSpotPrice_nonneg up hup a hstore)⟩
  cases hprice : getECSPrice up with
  | panic msg => exact absurd hprice (hret msg)
  | error e =>
    exact ⟨a, by simp only [RefreshOnDemandPrice, hprice], returnsNonnegRates_of_store a hstore⟩
  | ok priceInfo =>
    refine ⟨ParallelTask.Process (RefreshOnDemandPrice.handleFunc up priceInfo) a.regionList a,
      by simp only [RefreshOnDemandPrice, hprice], returnsNonnegRates_of_store _ ?_⟩
    exact RefreshOnDemandPrice.onDemand_process_nonneg up priceInfo a.regionList a
      (getECSPrice_nonneg up hup priceInfo hprice) hstore

theorem nonnegPrices_spotUpstream : spotUpstream.NonnegPrices := by
  refine ⟨fun doc hdoc e he w hw => ?_, fun region instanceType prices hprices e he => ?_⟩
  · have hdoc' : doc =
        { PricingInfo := [("R1::T1::vpc::linux", { Hours := [{ Price := "0.10" }] })] } := by
      have h : spotUpstream.fetchPricingDocument = .ok
          { PricingInfo := [("R1::T1::vpc::linux", { Hours := [{ Price := "0.10" }] })] } := rfl
      rw [h] at hdoc
      cases hdoc
      rfl
    subst hdoc'
    simp only [List.mem_singleton] at he
    subst he
    have hentry : getECSPrice.entry spotUpstream.ParseFloat
        ("R1::T1::vpc::linux", { Hours := [{ Price := "0.10" }] })
        = .ok (some ("R1", "T1", 1 / 10)) := rfl
    rw [hentry] at hw
    cases hw
    norm_num
  · have h : spotUpstream.DescribeSpotPriceHistory region instanceType
        = .ok [("zoneA", 5 / 100)] := rfl
    rw [h] at hprices
    cases hprices
    simp only [List.mem_singleton] at he
    subst he
    norm_num

/-- C12 amended, at the scenario with the spot price 0.05 and the document price
0.10: after either pass every rate the accessors return is non-negative. -/
theorem C12_nonneg_rates_witness :
    NonnegRates scenarioClient.priceData ∧
    spotUpstream.NonnegPrices ∧
    (∃ a', RefreshOnDemandPrice spotUpstream scenarioClient = .ok a' ∧ ReturnsNonnegRates a') ∧
    ReturnsNonnegRates (refreshSpotPrice spotUpstream scenarioClient) :=
  have hret : ∀ msg, getECSPrice spotUpstream ≠ .panic msg := fun _ h =>
    Outcome.noConfusion
      ((rfl : getECSPrice spotUpstream = .ok [("R1", [("T1", 1 / 10)])]).symm.trans h)
  ⟨nonnegRates_scenarioClient, nonnegPrices_spotUpstream,
    (C12_nonneg_rates spotUpstream scenarioClient nonnegRates_scenarioClient
      nonnegPrices_spotUpstream).1 hret,
    (C12_nonneg_rates spotUpstream scenarioClient nonnegRates_scenarioClient
      nonnegPrices_spotUpstream).2⟩

end PriceServer
